import Mathlib

/-!
Verification of the Mischief single-page web-archiving engine against its
specification.

The development shallowly embeds the JavaScript sources:

* `src/Mischief.js` — the capture controller: state machine, step pipeline,
  proxy-chunk ingestion (`networkInterception` / `getOrInitExchange`),
  size-budget enforcement and teardown.
* `src/exporters/mischiefToWacz.js` — the WACZ archive encoder.
* `src/exchanges/MischiefExchange.js` — the exchange class, including its
  dynamic key-filtering constructor.

Buffers are modelled as `List Nat` (one entry per byte; no arithmetic is
performed on byte values, so no modular truncation is needed). JavaScript
objects keyed by dynamic strings are modelled as association lists with
assignment-overwrite semantics (`jsObjSet` / `jsObjGet`). Fallible
operations return `Except`. Code of this repository that the claims need
but that is not under `src/` (the WARC record serializer `exporters/warc`,
the WACZ importer `Scoop.fromWACZ` a.k.a. `WACZToScoop`, the
`MischiefGeneratedExchange` class, the `MischiefLog` class and the
page-line projection from `utils/WACZ.js`) is modelled from the spec; each
such definition says so in its doc comment.
-/

/-- Raw byte sequences (the contents of a Node `Buffer`). -/
abbrev Bytes := List Nat

/-! ## JavaScript object helpers

`wacz.files[path] = data` assigns into a plain object: an existing key is
overwritten in place, a new key is appended in insertion order. Lookup
finds the unique binding of a key. -/

/-- Assignment `obj[k] = v` on a JavaScript object modelled as an
association list: overwrite the existing binding in place, else append. -/
def jsObjSet (obj : List (String × α)) (k : String) (v : α) : List (String × α) :=
  if obj.any (fun p => p.1 == k) then
    obj.map (fun p => if p.1 == k then (k, v) else p)
  else
    obj ++ [(k, v)]

/-- Property read `obj[k]` on a JavaScript object modelled as an
association list. -/
def jsObjGet (obj : List (String × α)) (k : String) : Option α :=
  (obj.find? (fun p => p.1 == k)).map (fun p => p.2)

/-! ## Data model -/

/-- The parsed request/response view used for exchanges synthesized
in-process rather than intercepted: the object literal shape built by the
screenshot step of `Mischief.capture` (`src/Mischief.js`, lines 149-156):
headers, HTTP version, status, and body. -/
structure ParsedMessage where
  headers : List String
  versionMajor : Nat
  versionMinor : Nat
  statusCode : Nat
  statusMessage : String
  body : Bytes
deriving DecidableEq

/-- An HTTP exchange as held in `Mischief.exchanges`
(`src/exchanges/MischiefExchange.js` plus the `requestRaw`/`responseRaw`
properties that `Mischief.networkInterception` assigns dynamically).
`date` is the creation wall-clock time, modelled as a `Nat`. Absent
(JavaScript `undefined`) buffers and parsed views are `none`; a present
`Buffer`, even an empty one, is `some` — mirroring JavaScript truthiness,
under which every `Buffer` object is truthy. -/
structure MischiefExchange where
  id : Option String
  date : Nat
  requestRaw : Option Bytes
  responseRaw : Option Bytes
  _request : Option ParsedMessage
  _response : Option ParsedMessage
deriving DecidableEq

/-- Modelled from the spec: the `MischiefGeneratedExchange` class is
re-exported by `src/exchanges/index.js` but its own file is not under
`src/`. Per the spec data model, a GeneratedExchange is an exchange
synthesized by the controller, carrying a synthetic URL, a creation
timestamp, an `isEntryPoint` flag, and its synthesized response payload. -/
structure MischiefGeneratedExchange where
  date : Nat
  url : String
  isEntryPoint : Bool
  response : ParsedMessage
deriving DecidableEq

/-- Modelled from the spec: the `MischiefLog` class is imported by
`src/Mischief.js` but its file is not under `src/`. Per the spec, a log
entry carries a message, a warning flag and an optional trace string. -/
structure MischiefLog where
  message : String
  isWarning : Bool
  trace : String
deriving DecidableEq

/-- The configuration record (`MischiefOptions`), restricted to the fields
the verified claims observe: the capture size budget `maxSize` and the
`provenanceSummary` export toggle. -/
structure MischiefOptions where
  maxSize : Nat
  provenanceSummary : Bool
deriving DecidableEq

/-- Free-form provenance summary (`capture.provenanceInfo`), modelled as a
key/value record. It is carried opaquely by the encoder. -/
abbrev ProvenanceInfo := List (String × String)

/-- The capture aggregate (`class Mischief` in `src/Mischief.js`).
`browserCloseCount` instruments the private `#browser` handle: it counts
how many times `#browser.close()` has run, so that "resources are
released exactly once" is an observable statement. `generatedExchanges`
and `provenanceInfo` are the capture fields read by
`src/exporters/mischiefToWacz.js`. -/
structure Mischief where
  state : Nat
  url : String
  options : MischiefOptions
  exchanges : List MischiefExchange
  generatedExchanges : List MischiefGeneratedExchange
  logs : List MischiefLog
  totalSize : Nat
  provenanceInfo : Option ProvenanceInfo
  browserCloseCount : Nat
deriving DecidableEq

/-- `Mischief.states.INIT` (`src/Mischief.js`, line 37). -/
def Mischief.states.INIT : Nat := 0

/-- `Mischief.states.SETUP` (`src/Mischief.js`, line 38). -/
def Mischief.states.SETUP : Nat := 1

/-- `Mischief.states.CAPTURE` (`src/Mischief.js`, line 39). -/
def Mischief.states.CAPTURE : Nat := 2

/-- `Mischief.states.TEARDOWN` (`src/Mischief.js`, line 40). -/
def Mischief.states.TEARDOWN : Nat := 3

/-- `Mischief.states.COMPLETE` (`src/Mischief.js`, line 41). -/
def Mischief.states.COMPLETE : Nat := 4

/-- `Mischief.states.PARTIAL` (`src/Mischief.js`, line 42). -/
def Mischief.states.PARTIAL : Nat := 5

/-- `Mischief.states.ERROR` (`src/Mischief.js`, line 43). -/
def Mischief.states.ERROR : Nat := 6

/-! ## Capture engine (`src/Mischief.js`) -/

/-- `Mischief.addToLogs(message, isWarning, trace)`: create and append a
log entry (`src/Mischief.js`, lines 282-285). The `verbose` console
echo is an external side effect and is not modelled. -/
def Mischief.addToLogs (m : Mischief) (message : String) (isWarning : Bool) (trace : String) : Mischief :=
  { m with logs := m.logs ++ [{ message := message, isWarning := isWarning, trace := trace }] }

/-- `Mischief.teardown()` (`src/Mischief.js`, lines 232-237): a no-op when
the state is already `TEARDOWN`; otherwise set the state to `TEARDOWN`,
log, and close the browser (which also closes the proxy via the
`disconnected` listener), counted by `browserCloseCount`. -/
def Mischief.teardown (m : Mischief) : Mischief :=
  if m.state == Mischief.states.TEARDOWN then m
  else
    let m1 := { m with state := Mischief.states.TEARDOWN }
    let m2 := m1.addToLogs "Closing browser and proxy server." false ""
    { m2 with browserCloseCount := m2.browserCloseCount + 1 }

/-- The predicate of the `findLast` call in `Mischief.getOrInitExchange`
(`src/Mischief.js`, lines 248-250): the exchange has the given session id,
and either the chunk is a response, or it is a request and the exchange
has no response buffer yet (`!ex.responseRaw`; a present `Buffer` is
truthy). -/
def exMatch (id type : String) (ex : MischiefExchange) : Bool :=
  ex.id == some id && (type == "response" || ex.responseRaw.isNone)

/-- Index of the last element satisfying `p`, as found by
`Array.prototype.findLast` (most-recently-appended first). -/
def findLastIdx (p : α → Bool) : List α → Option Nat
  | [] => none
  | a :: as =>
    match findLastIdx p as with
    | some i => some (i + 1)
    | none => if p a then some 0 else none

/-- `new MischiefExchange({id: id})` as created by `getOrInitExchange`:
only the `id` key is set; all other instance properties keep their
initial values. The `new Date()` creation timestamp is an external clock
read, modelled as `0` (no verified claim observes the creation dates of
ingested exchanges). -/
def newExchange (id : String) : MischiefExchange :=
  { id := some id, date := 0, requestRaw := none, responseRaw := none,
    _request := none, _response := none }

/-- `Mischief.getOrInitExchange(id, type)` (`src/Mischief.js`, lines
247-251): return the index of the `findLast` match, or append a fresh
exchange with that session id and return its index. The possibly-extended
store is returned alongside the index. -/
def Mischief.getOrInitExchange (m : Mischief) (id : String) (type : String) : Nat × Mischief :=
  match findLastIdx (exMatch id type) m.exchanges with
  | some i => (i, m)
  | none => (m.exchanges.length, { m with exchanges := m.exchanges ++ [newExchange id] })

/-- Read `ex[`${type}Raw`]` for `type` one of `"request"`/`"response"`
(the only two directions the proxy delivers, per the `injectData` /
`injectResponse` wiring in `Mischief.setup`, lines 202-203). -/
def rawGet (ex : MischiefExchange) (type : String) : Option Bytes :=
  if type == "request" then ex.requestRaw
  else if type == "response" then ex.responseRaw
  else none

/-- Write `ex[`${type}Raw`] = b` for `type` one of
`"request"`/`"response"`. -/
def setRawBuf (ex : MischiefExchange) (type : String) (b : Bytes) : MischiefExchange :=
  if type == "request" then { ex with requestRaw := some b }
  else if type == "response" then { ex with responseRaw := some b }
  else ex

/-- The buffer update of `Mischief.networkInterception`
(`src/Mischief.js`, line 264):
`ex[prop] = ex[prop] ? Buffer.concat([ex[prop], data]) : data` —
concatenate onto a present (truthy) buffer, else install the chunk. -/
def appendRaw (ex : MischiefExchange) (type : String) (data : Bytes) : MischiefExchange :=
  match rawGet ex type with
  | some old => setRawBuf ex type (old ++ data)
  | none => setRawBuf ex type data

/-- Replace the element at index `i` by `f` of it, leaving the rest of the
list unchanged (mutation of the aliased exchange returned by
`getOrInitExchange`). -/
def updateAt (f : α → α) : Nat → List α → List α
  | _, [] => []
  | 0, a :: as => f a :: as
  | n + 1, a :: as => a :: updateAt f n as

/-- `Mischief.networkInterception(type, data, session)`
(`src/Mischief.js`, lines 261-272): select or create the target exchange,
append the chunk to its raw buffer, add the chunk length to `totalSize`,
and, if the budget is now met while the state is still `CAPTURE`, log the
budget notice and tear down. The function also returns `data` unchanged
to the transport; the returned capture is the state of interest here. -/
def Mischief.networkInterception (m : Mischief) (type : String) (data : Bytes) (sessionId : String) : Mischief :=
  let p := m.getOrInitExchange sessionId type
  let m1 := p.2
  let m2 := { m1 with exchanges := updateAt (fun ex => appendRaw ex type data) p.1 m1.exchanges }
  let m3 := { m2 with totalSize := m2.totalSize + data.length }
  if m3.options.maxSize ≤ m3.totalSize && m3.state == Mischief.states.CAPTURE then
    Mischief.teardown (m3.addToLogs "Max size reached. Ending further capture." false "")
  else m3

/-- One tagged byte chunk as delivered by the proxy transport:
`(direction, data, session id)`. -/
structure Chunk where
  type : String
  data : Bytes
  sessionId : String
deriving DecidableEq

/-- Serialized ingestion of a sequence of proxy chunks (per spec section
5, chunk-processing steps are serialized against the shared store). -/
def runChunks (m : Mischief) (cs : List Chunk) : Mischief :=
  cs.foldl (fun acc c => acc.networkInterception c.type c.data c.sessionId) m

/-- The observable behaviour of one pipeline step of `Mischief.capture`.
A step body (`step.fn`) interacts with the external browser page; its
effects on the capture are the proxy chunks delivered while it runs
(`chunks`) and whether it threw (`fails`, with `err` the caught trace). -/
structure StepRun where
  name : String
  chunks : List Chunk
  fails : Bool
  err : String
deriving DecidableEq

/-- The `STEP [i+1/total]: name` log prefix of the capture loop
(`src/Mischief.js`, line 175). -/
def stepMsg (i total : Nat) (name : String) : String :=
  "STEP [" ++ toString (i + 1) ++ "/" ++ toString total ++ "]: " ++ name

/-- One iteration body of the capture loop (`src/Mischief.js`, lines
173-183): log the step header, run the step (its proxy traffic), and on
failure log either the step failure (state still `CAPTURE`) or the
max-size early end (state already left `CAPTURE`). -/
def Mischief.runStep (m : Mischief) (step : StepRun) (i total : Nat) : Mischief :=
  let m1 := m.addToLogs (stepMsg i total step.name) false ""
  let m2 := runChunks m1 step.chunks
  if step.fails then
    if m2.state == Mischief.states.CAPTURE then
      m2.addToLogs (stepMsg i total step.name ++ " - failed") true step.err
    else
      m2.addToLogs (stepMsg i total step.name ++ " - ended due to max size reached") true ""
  else m2

/-- The `do`/`while` pipeline loop of `Mischief.capture`
(`src/Mischief.js`, lines 171-184): run the current step, then continue
with the next index only while the state is still `CAPTURE` and steps
remain (`this.state == Mischief.states.CAPTURE && i++ < steps.length-1`). -/
def Mischief.captureLoop (total : Nat) : List StepRun → Nat → Mischief → Mischief
  | [], _, m => m
  | step :: rest, i, m =>
    let m1 := m.runStep step i total
    if m1.state == Mischief.states.CAPTURE && decide (i < total - 1) then
      Mischief.captureLoop total rest (i + 1) m1
    else m1

/-- `Mischief.capture()` (`src/Mischief.js`, lines 106-188): enter
`SETUP` (inside `setup()`); a resource-acquisition failure there
propagates to the caller (`setupFails`, modelled as `Except.error`).
Otherwise log the start, enter `CAPTURE`, run the step pipeline, always
tear down, and set and return state `COMPLETE`. The steps selected by the
configuration are passed as their observable behaviours (`StepRun`). -/
def Mischief.capture (m : Mischief) (setupFails : Bool) (steps : List StepRun) : Except String Mischief :=
  let m0 := { m with state := Mischief.states.SETUP }
  if setupFails then Except.error "SetupError"
  else
    let m1 := m0.addToLogs ("Starting capture of " ++ m0.url ++ " with options.") false ""
    let m2 := { m1 with state := Mischief.states.CAPTURE }
    let m3 := Mischief.captureLoop steps.length steps 0 m2
    let m4 := m3.teardown
    Except.ok { m4 with state := Mischief.states.COMPLETE }

/-! ## Record-envelope serialization

Modelled from the spec: the WARC record writer (`exporters/warc`, called
by `Mischief.toWarc`) is not under `src/`. Per spec sections 4.3 and 6,
the primary record file serializes, in store order, every exchange (and,
so that the round trip required by section 4.4 can restore them, every
generated exchange), each field in a length-prefixed envelope whose
concatenation reproduces the captured raw bytes. The combinators below
are that envelope: each `enc*` emits a length-prefixed field and each
`read*` consumes one from the front of the byte stream, returning the
unconsumed tail. -/

/-- Emit a bare numeric field. -/
def encNat (n : Nat) : Bytes := [n]

/-- Consume a bare numeric field. -/
def readNat : Bytes → Option (Nat × Bytes)
  | [] => none
  | n :: rest => some (n, rest)

/-- Emit a length-prefixed byte block (declared length, then body). -/
def encBytes (b : Bytes) : Bytes := b.length :: b

/-- Consume a length-prefixed byte block; fail if the declared length
overruns the stream. -/
def readBytes : Bytes → Option (Bytes × Bytes)
  | [] => none
  | n :: rest => if n ≤ rest.length then some (rest.take n, rest.drop n) else none

/-- Emit a string as a length-prefixed block of character codes. -/
def encStr (s : String) : Bytes := encBytes (s.data.map Char.toNat)

/-- Consume a string field. -/
def readStr (b : Bytes) : Option (String × Bytes) :=
  match readBytes b with
  | none => none
  | some (cs, rest) => some (String.mk (cs.map Char.ofNat), rest)

/-- Emit a Boolean flag. -/
def encBool (x : Bool) : Bytes := [if x then 1 else 0]

/-- Consume a Boolean flag. -/
def readBool : Bytes → Option (Bool × Bytes)
  | [] => none
  | n :: rest => some (n != 0, rest)

/-- Emit an optional field: a presence tag, then the payload when
present. -/
def encOpt (f : α → Bytes) : Option α → Bytes
  | none => [0]
  | some a => 1 :: f a

/-- Consume an optional field. -/
def readOpt (rd : Bytes → Option (α × Bytes)) : Bytes → Option (Option α × Bytes)
  | [] => none
  | 0 :: rest => some (none, rest)
  | (_ + 1) :: rest =>
    match rd rest with
    | none => none
    | some (a, b) => some (some a, b)

/-- Consume exactly `n` repetitions of a field. -/
def readN (rd : Bytes → Option (α × Bytes)) : Nat → Bytes → Option (List α × Bytes)
  | 0, b => some ([], b)
  | n + 1, b =>
    match rd b with
    | none => none
    | some (a, b1) =>
      match readN rd n b1 with
      | none => none
      | some (as, b2) => some (a :: as, b2)

/-- Emit a counted list: declared count, then each element in order. -/
def encList (f : α → Bytes) (l : List α) : Bytes :=
  l.length :: (l.map f).flatten

/-- Consume a counted list. -/
def readList (rd : Bytes → Option (α × Bytes)) (b : Bytes) : Option (List α × Bytes) :=
  match readNat b with
  | none => none
  | some (n, rest) => readN rd n rest

/-- Serialize a parsed request/response view. -/
def encMsg (p : ParsedMessage) : Bytes :=
  encList encStr p.headers ++ encNat p.versionMajor ++ encNat p.versionMinor ++
    encNat p.statusCode ++ encStr p.statusMessage ++ encBytes p.body

/-- Consume a parsed request/response view. -/
def readMsg (b : Bytes) : Option (ParsedMessage × Bytes) :=
  match readList readStr b with
  | none => none
  | some (headers, b1) =>
    match readNat b1 with
    | none => none
    | some (vMajor, b2) =>
      match readNat b2 with
      | none => none
      | some (vMinor, b3) =>
        match readNat b3 with
        | none => none
        | some (status, b4) =>
          match readStr b4 with
          | none => none
          | some (statusMsg, b5) =>
            match readBytes b5 with
            | none => none
            | some (body, b6) =>
              some ({ headers := headers, versionMajor := vMajor, versionMinor := vMinor,
                      statusCode := status, statusMessage := statusMsg, body := body }, b6)

/-- Serialize one captured exchange: a request record and a response
record sharing the correlation id and timestamp, raw bytes verbatim. -/
def encExchange (ex : MischiefExchange) : Bytes :=
  encOpt encStr ex.id ++ encNat ex.date ++ encOpt encBytes ex.requestRaw ++
    encOpt encBytes ex.responseRaw ++ encOpt encMsg ex._request ++ encOpt encMsg ex._response

/-- Consume one captured exchange. -/
def readExchange (b : Bytes) : Option (MischiefExchange × Bytes) :=
  match readOpt readStr b with
  | none => none
  | some (id, b1) =>
    match readNat b1 with
    | none => none
    | some (date, b2) =>
      match readOpt readBytes b2 with
      | none => none
      | some (requestRaw, b3) =>
        match readOpt readBytes b3 with
        | none => none
        | some (responseRaw, b4) =>
          match readOpt readMsg b4 with
          | none => none
          | some (req, b5) =>
            match readOpt readMsg b5 with
            | none => none
            | some (res, b6) =>
              some ({ id := id, date := date, requestRaw := requestRaw,
                      responseRaw := responseRaw, _request := req, _response := res }, b6)

/-- Serialize one generated exchange. -/
def encGenerated (g : MischiefGeneratedExchange) : Bytes :=
  encNat g.date ++ encStr g.url ++ encBool g.isEntryPoint ++ encMsg g.response

/-- Consume one generated exchange. -/
def readGenerated (b : Bytes) : Option (MischiefGeneratedExchange × Bytes) :=
  match readNat b with
  | none => none
  | some (date, b1) =>
    match readStr b1 with
    | none => none
    | some (url, b2) =>
      match readBool b2 with
      | none => none
      | some (entry, b3) =>
        match readMsg b3 with
        | none => none
        | some (res, b4) =>
          some ({ date := date, url := url, isEntryPoint := entry, response := res }, b4)

/-- Modelled from the spec: the payload of `archive/data.warc` — the
record file produced by the missing `exporters/warc` for
`capture.toWarc()`: every exchange in store order, then every generated
exchange in generation order. -/
def warcFile (m : Mischief) : Bytes :=
  encList encExchange m.exchanges ++ encList encGenerated m.generatedExchanges

/-- Modelled from the spec: parse the primary record file back into the
exchange list and generated-exchange list, failing on a malformed
envelope or trailing garbage (spec section 4.4). -/
def parseWarc (b : Bytes) : Option (List MischiefExchange × List MischiefGeneratedExchange) :=
  match readList readExchange b with
  | none => none
  | some (exs, b1) =>
    match readList readGenerated b1 with
    | none => none
    | some (gens, b2) => if b2.isEmpty then some (exs, gens) else none

/-! ## WACZ encoder (`src/exporters/mischiefToWacz.js`) -/

/-- A page descriptor (one line of `pages.jsonl`): originating URL and
timestamp. -/
structure PageLine where
  url : String
  ts : Nat
deriving DecidableEq

/-- Modelled from the spec: `mischiefExchangeToPageLine` lives in
`utils/WACZ.js`, which is not under `src/`. Per spec section 4.3, a page
descriptor carries at minimum the originating URL and timestamp. For an
intercepted exchange the URL is derived from its raw request bytes by the
missing module; no verified claim observes that text, so it is modelled
as the empty string. A generated exchange carries its synthetic URL
directly. -/
def mischiefExchangeToPageLine : MischiefExchange ⊕ MischiefGeneratedExchange → PageLine
  | Sum.inl ex => { url := "", ts := ex.date }
  | Sum.inr g => { url := g.url, ts := g.date }

/-- The WACZ container model (spec section 3): logical file paths to byte
payloads, the page list, and the optional metadata-extras block. The
`datapackageExtras` field holds the `{"provenanceInfo": ...}` object when
set. -/
structure WACZ where
  files : List (String × Bytes)
  pages : List PageLine
  datapackageExtras : Option ProvenanceInfo
deriving DecidableEq

/-- `validStates` of `mischiefToWacz`
(`src/exporters/mischiefToWacz.js`, line 23). -/
def validStates : List Nat := [Mischief.states.PARTIAL, Mischief.states.COMPLETE]

/-- The path of a raw exchange payload
(`src/exporters/mischiefToWacz.js`, line 45):
`raw/${type}_${exchange.date.toISOString()}_${exchange.id}`. The ISO
rendering of the modelled `Nat` timestamp is its decimal string; a
JavaScript `undefined` id renders as the string `undefined` in the
template literal. -/
def rawPath (type : String) (ex : MischiefExchange) : String :=
  "raw/" ++ type ++ "_" ++ toString ex.date ++ "_" ++ ex.id.getD "undefined"

/-- The raw payload entries one exchange contributes
(`src/exporters/mischiefToWacz.js`, lines 41-47): its request buffer then
its response buffer, skipping absent (falsy) buffers. -/
def exchangeRawFiles (ex : MischiefExchange) : List (String × Bytes) :=
  (match ex.requestRaw with
   | some d => [(rawPath "request" ex, d)]
   | none => []) ++
  (match ex.responseRaw with
   | some d => [(rawPath "response" ex, d)]
   | none => [])

/-- The sequence of `wacz.files[...] = data` assignments performed by the
`includeRaw` branch (`src/exporters/mischiefToWacz.js`, lines 40-48): for
each exchange in store order, its raw payload entries. -/
def rawWrites (exchanges : List MischiefExchange) : List (String × Bytes) :=
  exchanges.flatMap exchangeRawFiles

/-- Both candidate raw payload paths of every exchange, in store order. -/
def rawPathKeys (exchanges : List MischiefExchange) : List String :=
  exchanges.flatMap (fun ex => [rawPath "request" ex, rawPath "response" ex])

/-- `mischiefToWacz(capture, includeRaw)`
(`src/exporters/mischiefToWacz.js`): reject a capture that is not
`PARTIAL` or `COMPLETE`; store the WARC at `archive/data.warc`; attach
`provenanceInfo` as datapackage extras when the option is set and the
info is present; store the raw exchange buffers when `includeRaw`; and
build the page list from the first exchange in the store followed by the
generated exchanges flagged `isEntryPoint`, in order. (The
`capture instanceof Mischief` half of the guard is vacuous in this typed
embedding.) -/
def mischiefToWacz (capture : Mischief) (includeRaw : Bool) : Except String WACZ :=
  if !(validStates.contains capture.state) then
    Except.error "`capture` must be a partial or complete Mischief object."
  else
    let files0 := [("archive/data.warc", warcFile capture)]
    let extras := if capture.options.provenanceSummary then capture.provenanceInfo else none
    let files1 :=
      if includeRaw then
        (rawWrites capture.exchanges).foldl (fun fs kv => jsObjSet fs kv.1 kv.2) files0
      else files0
    let entryPoints :=
      (match capture.exchanges with
       | [] => []
       | ex :: _ => [Sum.inl ex]) ++
      (capture.generatedExchanges.filter (fun g => g.isEntryPoint)).map Sum.inr
    Except.ok { files := files1,
                pages := entryPoints.map mischiefExchangeToPageLine,
                datapackageExtras := extras }

/-- Modelled from the spec: the WACZ importer (`WACZToScoop` /
`Scoop.fromWACZ`) is not under `src/` (only its round-trip test is). Per
spec section 4.4, the decoder validates the presence of the primary
record file, parses it back into the exchange and generated-exchange
lists preserving order and raw bytes, and restores the provenance
metadata from the metadata-extras block; transient state (lifecycle
state, logs, live browser/proxy handles) is not reconstructed. The
raw-payload preference of the spec is the identity here because the modelled
record envelope is lossless. -/
def WACZToMischief (w : WACZ) : Except String Mischief :=
  match jsObjGet w.files "archive/data.warc" with
  | none => Except.error "DecodeError: missing archive/data.warc"
  | some warcBytes =>
    match parseWarc warcBytes with
    | none => Except.error "DecodeError: malformed record envelope"
    | some (exs, gens) =>
      Except.ok { state := Mischief.states.PARTIAL, url := "",
                  options := { maxSize := 0, provenanceSummary := false },
                  exchanges := exs, generatedExchanges := gens, logs := [],
                  totalSize := 0, provenanceInfo := w.datapackageExtras,
                  browserCloseCount := 0 }

/-- Decode after encode, at the container interface (the encoder output
is the container model ready for serialization, spec section 4.3). -/
def waczRoundTrip (m : Mischief) (includeRaw : Bool) : Except String Mischief :=
  match mischiefToWacz m includeRaw with
  | Except.error e => Except.error e
  | Except.ok w => WACZToMischief w

/-- `isOk` test on an `Except` result. -/
def exceptIsOk : Except ε α → Bool
  | Except.ok _ => true
  | Except.error _ => false

/-! ## The `MischiefExchange` constructor as a dynamic object
(`src/exchanges/MischiefExchange.js`)

The constructor iterates the `props` object and executes
`if (key in this) this[key] = value`. To state what it discards, the
instance is modelled as a JavaScript object: an association list of own
properties (a property may hold `undefined`, i.e. `none`). At
construction time the own properties are the class fields `date`, `id`,
`_request`, `_response`, and the prototype additionally supplies the
`request`/`response` accessors, whose setters store into `_request` /
`_response`. -/

/-- A JavaScript value, as far as the screenshot exchange literal of
`src/Mischief.js` (lines 147-157) needs: strings, numbers, buffers,
arrays and objects. -/
inductive JSVal where
  | str : String → JSVal
  | num : Nat → JSVal
  | buf : Bytes → JSVal
  | arr : List JSVal → JSVal
  | obj : List (String × JSVal) → JSVal

/-- The own properties of a freshly allocated `MischiefExchange` before
the constructor loop runs: the class field declarations, `date`
initialized from the clock and the rest `undefined`. -/
def exchangeInitProps (dateNow : JSVal) : List (String × Option JSVal) :=
  [("date", some dateNow), ("id", none), ("_request", none), ("_response", none)]

/-- Data properties the `in` operator finds on the prototype chain of a
`MischiefExchange` instance: `constructor` from
`MischiefExchange.prototype`, and the standard function-valued members
of `Object.prototype`. Assigning through such a key shadows the
inherited value with an own property, so the constructor loop copies
these keys rather than discarding them. -/
def prototypeDataKeys : List String :=
  ["constructor", "toString", "toLocaleString", "valueOf", "hasOwnProperty",
   "isPrototypeOf", "propertyIsEnumerable",
   "__defineGetter__", "__defineSetter__", "__lookupGetter__", "__lookupSetter__"]

/-- Accessor properties on the prototype chain: the class
`request`/`response` setters store into `_request`/`_response`, and the
`Object.prototype.__proto__` setter writes the internal prototype slot,
creating no own property. -/
def prototypeAccessorKeys : List String := ["request", "response", "__proto__"]

/-- The `key in this` test: an own property, or any member of the
prototype chain (the class accessors and `constructor`, and the
`Object.prototype` members). -/
def exchangeHasKey (obj : List (String × Option JSVal)) (k : String) : Bool :=
  obj.any (fun p => p.1 == k) || prototypeAccessorKeys.contains k
    || prototypeDataKeys.contains k

/-- One iteration of the constructor loop
(`src/exchanges/MischiefExchange.js`, lines 46-50): copy the entry only
when `key in this`; assigning through the `request`/`response` accessors
stores into `_request`/`_response`, assigning through the inherited
`__proto__` accessor creates no own property, and every other found key
(own fields and inherited data members alike) becomes an own property. -/
def exchangeConstructorStep (obj : List (String × Option JSVal)) (kv : String × JSVal) : List (String × Option JSVal) :=
  if exchangeHasKey obj kv.1 then
    if kv.1 == "request" then jsObjSet obj "_request" (some kv.2)
    else if kv.1 == "response" then jsObjSet obj "_response" (some kv.2)
    else if kv.1 == "__proto__" then obj
    else jsObjSet obj kv.1 (some kv.2)
  else obj

/-- `new MischiefExchange(props)`
(`src/exchanges/MischiefExchange.js`, lines 45-51): fold the constructor
loop over the entries of `props` in order. -/
def mischiefExchangeNew (dateNow : JSVal) (props : List (String × JSVal)) : List (String × Option JSVal) :=
  props.foldl exchangeConstructorStep (exchangeInitProps dateNow)

/-- The `props` literal the controller passes when it synthesizes the
screenshot exchange (`src/Mischief.js`, lines 147-157): a `url` key and a
`response` key holding the parsed response object, with the raster image
`shot` as body. -/
def screenshotProps (shot : Bytes) : List (String × JSVal) :=
  [("url", JSVal.str "file:///screenshot.png"),
   ("response", JSVal.obj
     [("headers", JSVal.arr [JSVal.str "Content-Type", JSVal.str "image/png"]),
      ("versionMajor", JSVal.num 1),
      ("versionMinor", JSVal.num 1),
      ("statusCode", JSVal.num 200),
      ("statusMessage", JSVal.str "OK"),
      ("body", JSVal.buf shot)])]

/-! ## Helper lemmas: association lists -/

theorem find?_map_overwrite (obj : List (String × α)) (k key : String) (v : α)
    (h : key ≠ k) :
    List.find? (fun p => p.1 == key) (obj.map (fun p => if p.1 == k then (k, v) else p))
      = List.find? (fun p => p.1 == key) obj := by
  induction obj with
  | nil => rfl
  | cons a tl ih =>
    simp only [List.map_cons]
    by_cases hak : a.1 = k
    · have e1 : (if (a.1 == k) = true then (k, v) else a) = (k, v) := by simp [hak]
      rw [e1]
      rw [List.find?_cons_of_neg _ (by simp only [beq_iff_eq]; exact fun e => h e.symm)]
      rw [List.find?_cons_of_neg _ (by simp only [beq_iff_eq]; rw [hak]; exact fun e => h e.symm)]
      exact ih
    · have e1 : (if (a.1 == k) = true then (k, v) else a) = a := by simp [hak]
      rw [e1]
      by_cases hakey : a.1 = key
      · rw [List.find?_cons_of_pos _ (by simp [hakey]),
            List.find?_cons_of_pos _ (by simp [hakey])]
      · rw [List.find?_cons_of_neg _ (by simp only [beq_iff_eq]; exact hakey)]
        rw [List.find?_cons_of_neg _ (by simp only [beq_iff_eq]; exact hakey)]
        exact ih

theorem jsObjGet_set_ne (obj : List (String × α)) (k key : String) (v : α)
    (h : key ≠ k) :
    jsObjGet (jsObjSet obj k v) key = jsObjGet obj key := by
  unfold jsObjSet jsObjGet
  by_cases hc : obj.any (fun p => p.1 == k) = true
  · rw [if_pos hc, find?_map_overwrite obj k key v h]
  · rw [if_neg hc, List.find?_append]
    have h3 : List.find? (fun p => p.1 == key) [(k, v)] = none := by
      have : ((k, v).1 == key) = false := by
        simp only [beq_eq_false_iff_ne]
        exact fun e => h e.symm
      simp [List.find?, this]
    rw [h3]
    simp

theorem jsObjGet_foldl_set_ne (kvs : List (String × α)) (obj : List (String × α)) (key : String)
    (h : ∀ kv ∈ kvs, kv.1 ≠ key) :
    jsObjGet (kvs.foldl (fun fs kv => jsObjSet fs kv.1 kv.2) obj) key = jsObjGet obj key := by
  induction kvs generalizing obj with
  | nil => rfl
  | cons a tl ih =>
    simp only [List.foldl_cons]
    rw [ih _ (fun kv hkv => h kv (List.mem_cons_of_mem a hkv))]
    exact jsObjGet_set_ne obj a.1 key a.2 (fun e => h a (List.mem_cons_self a tl) e.symm)

theorem jsObjSet_not_mem (obj : List (String × α)) (k : String) (v : α)
    (h : ∀ p ∈ obj, p.1 ≠ k) :
    jsObjSet obj k v = obj ++ [(k, v)] := by
  unfold jsObjSet
  have : obj.any (fun p => p.1 == k) = false := by
    rw [List.any_eq_false]
    intro p hp
    simp [beq_eq_false_iff_ne]
    exact h p hp
  simp [this]

theorem foldl_jsObjSet_append (kvs : List (String × α)) (obj : List (String × α))
    (hdisj : ∀ kv ∈ kvs, ∀ p ∈ obj, p.1 ≠ kv.1)
    (hnd : (kvs.map Prod.fst).Nodup) :
    kvs.foldl (fun fs kv => jsObjSet fs kv.1 kv.2) obj = obj ++ kvs := by
  induction kvs generalizing obj with
  | nil => simp
  | cons a tl ih =>
    simp only [List.foldl_cons]
    rw [jsObjSet_not_mem obj a.1 a.2 (fun p hp => hdisj a (List.mem_cons_self a tl) p hp)]
    rw [ih (obj ++ [(a.1, a.2)])]
    · simp
    · intro kv hkv p hp
      rcases List.mem_append.mp hp with hp1 | hp2
      · exact hdisj kv (List.mem_cons_of_mem a hkv) p hp1
      · have : p = (a.1, a.2) := by simpa using hp2
        subst this
        simp only [List.map_cons, List.nodup_cons] at hnd
        intro e
        exact hnd.1 (e ▸ List.mem_map_of_mem Prod.fst hkv)
    · simp only [List.map_cons, List.nodup_cons] at hnd
      exact hnd.2


/-! ## Helper lemmas: the record envelope inverts -/

theorem readNat_enc (n : Nat) (t : Bytes) : readNat (encNat n ++ t) = some (n, t) := rfl

theorem readBytes_enc (b t : Bytes) : readBytes (encBytes b ++ t) = some (b, t) := by
  show readBytes (b.length :: (b ++ t)) = some (b, t)
  simp only [readBytes]
  rw [if_pos (by simp), List.take_left, List.drop_left]

theorem readStr_enc (s : String) (t : Bytes) : readStr (encStr s ++ t) = some (s, t) := by
  unfold readStr encStr
  rw [readBytes_enc]
  simp [List.map_map, Function.comp_def, Char.ofNat_toNat]

theorem readBool_enc (x : Bool) (t : Bytes) : readBool (encBool x ++ t) = some (x, t) := by
  cases x <;> rfl

theorem readOpt_enc (rd : Bytes → Option (α × Bytes)) (f : α → Bytes)
    (hrd : ∀ a t, rd (f a ++ t) = some (a, t)) (o : Option α) (t : Bytes) :
    readOpt rd (encOpt f o ++ t) = some (o, t) := by
  cases o with
  | none => rfl
  | some a =>
    show readOpt rd (1 :: (f a ++ t)) = some (some a, t)
    simp [readOpt, hrd a t]

theorem readN_enc (rd : Bytes → Option (α × Bytes)) (f : α → Bytes)
    (hrd : ∀ a t, rd (f a ++ t) = some (a, t)) :
    ∀ (l : List α) (t : Bytes), readN rd l.length ((l.map f).flatten ++ t) = some (l, t) := by
  intro l
  induction l with
  | nil => intro t; rfl
  | cons a tl ih =>
    intro t
    show readN rd (tl.length + 1) ((f a ++ (tl.map f).flatten) ++ t) = some (a :: tl, t)
    rw [List.append_assoc]
    simp [readN, hrd a ((tl.map f).flatten ++ t), ih t]

theorem readList_enc (rd : Bytes → Option (α × Bytes)) (f : α → Bytes)
    (hrd : ∀ a t, rd (f a ++ t) = some (a, t)) (l : List α) (t : Bytes) :
    readList rd (encList f l ++ t) = some (l, t) := by
  show readList rd (l.length :: ((l.map f).flatten ++ t)) = some (l, t)
  simp [readList, readNat, readN_enc rd f hrd l t]

theorem readMsg_enc (p : ParsedMessage) (t : Bytes) : readMsg (encMsg p ++ t) = some (p, t) := by
  simp [readMsg, encMsg, List.append_assoc, readList_enc readStr encStr readStr_enc,
        readNat_enc, readStr_enc, readBytes_enc]

theorem readExchange_enc (ex : MischiefExchange) (t : Bytes) :
    readExchange (encExchange ex ++ t) = some (ex, t) := by
  simp [readExchange, encExchange, List.append_assoc,
        readOpt_enc readStr encStr readStr_enc,
        readOpt_enc readBytes encBytes readBytes_enc,
        readOpt_enc readMsg encMsg readMsg_enc,
        readNat_enc]

theorem readGenerated_enc (g : MischiefGeneratedExchange) (t : Bytes) :
    readGenerated (encGenerated g ++ t) = some (g, t) := by
  simp [readGenerated, encGenerated, List.append_assoc, readNat_enc, readStr_enc,
        readBool_enc, readMsg_enc]

theorem parseWarc_warcFile (m : Mischief) :
    parseWarc (warcFile m) = some (m.exchanges, m.generatedExchanges) := by
  have h1 := readList_enc readExchange encExchange readExchange_enc m.exchanges
    (encList encGenerated m.generatedExchanges)
  have h2 := readList_enc readGenerated encGenerated readGenerated_enc m.generatedExchanges []
  rw [List.append_nil] at h2
  simp [parseWarc, warcFile, h1, h2]

/-! ## Helper lemmas: the capture engine -/

theorem teardown_exchanges (m : Mischief) : m.teardown.exchanges = m.exchanges := by
  unfold Mischief.teardown
  split <;> rfl

theorem teardown_totalSize (m : Mischief) : m.teardown.totalSize = m.totalSize := by
  unfold Mischief.teardown
  split <;> rfl

theorem teardown_state (m : Mischief) : m.teardown.state = Mischief.states.TEARDOWN := by
  unfold Mischief.teardown
  split
  · next h => exact beq_iff_eq.mp h
  · rfl

theorem teardown_of_eq (m : Mischief) (h : m.state = Mischief.states.TEARDOWN) :
    m.teardown = m := by
  unfold Mischief.teardown
  rw [if_pos (by simp [h])]

theorem teardown_count_of_ne (m : Mischief) (h : m.state ≠ Mischief.states.TEARDOWN) :
    m.teardown.browserCloseCount = m.browserCloseCount + 1 := by
  unfold Mischief.teardown
  rw [if_neg (by simp [h])]
  rfl

theorem teardown_logs_of_ne (m : Mischief) (h : m.state ≠ Mischief.states.TEARDOWN) :
    m.teardown.logs = m.logs ++
      [{ message := "Closing browser and proxy server.", isWarning := false, trace := "" }] := by
  unfold Mischief.teardown
  rw [if_neg (by simp [h])]
  rfl

theorem getOrInitExchange_found (m : Mischief) (id type : String) (i : Nat)
    (h : findLastIdx (exMatch id type) m.exchanges = some i) :
    m.getOrInitExchange id type = (i, m) := by
  unfold Mischief.getOrInitExchange
  rw [h]

theorem getOrInitExchange_missing (m : Mischief) (id type : String)
    (h : findLastIdx (exMatch id type) m.exchanges = none) :
    m.getOrInitExchange id type =
      (m.exchanges.length, { m with exchanges := m.exchanges ++ [newExchange id] }) := by
  unfold Mischief.getOrInitExchange
  rw [h]

theorem getOrInitExchange_frame (m : Mischief) (id type : String) :
    (m.getOrInitExchange id type).2.totalSize = m.totalSize ∧
    (m.getOrInitExchange id type).2.state = m.state ∧
    (m.getOrInitExchange id type).2.logs = m.logs ∧
    (m.getOrInitExchange id type).2.browserCloseCount = m.browserCloseCount ∧
    (m.getOrInitExchange id type).2.options = m.options := by
  unfold Mischief.getOrInitExchange
  cases findLastIdx (exMatch id type) m.exchanges <;> exact ⟨rfl, rfl, rfl, rfl, rfl⟩

theorem findLastIdx_none_spec (p : α → Bool) (l : List α)
    (h : findLastIdx p l = none) : ∀ (j : Nat) (b : α), l[j]? = some b → p b = false := by
  induction l with
  | nil => intro j b hb; simp at hb
  | cons a as ih =>
    intro j b hb
    unfold findLastIdx at h
    cases hfl : findLastIdx p as with
    | some k => rw [hfl] at h; exact absurd h (by simp)
    | none =>
      rw [hfl] at h
      have hpa : p a = false := by
        by_cases hp : p a = true
        · rw [if_pos hp] at h; exact absurd h (by simp)
        · exact Bool.eq_false_iff.mpr hp
      cases j with
      | zero => simp at hb; rw [← hb]; exact hpa
      | succ j2 =>
        rw [List.getElem?_cons_succ] at hb
        exact ih hfl j2 b hb

theorem findLastIdx_some_spec (p : α → Bool) (l : List α) :
    ∀ i, findLastIdx p l = some i →
      (∃ a, l[i]? = some a ∧ p a = true) ∧
      (∀ (j : Nat) (b : α), i < j → l[j]? = some b → p b = false) := by
  induction l with
  | nil => intro i h; exact absurd h (by simp [findLastIdx])
  | cons a as ih =>
    intro i h
    unfold findLastIdx at h
    cases hfl : findLastIdx p as with
    | some k =>
      rw [hfl] at h
      have hik : i = k + 1 := by
        have h2 := h; simp at h2; omega
      subst hik
      obtain ⟨⟨b, hb, hpb⟩, hafter⟩ := ih k hfl
      constructor
      · exact ⟨b, by rw [List.getElem?_cons_succ]; exact hb, hpb⟩
      · intro j c hj hc
        cases j with
        | zero => omega
        | succ j2 =>
          rw [List.getElem?_cons_succ] at hc
          exact hafter j2 c (by omega) hc
    | none =>
      rw [hfl] at h
      have hpa : p a = true := by
        by_cases hp : p a = true
        · exact hp
        · rw [if_neg hp] at h; exact absurd h (by simp)
      have hi0 : i = 0 := by
        rw [if_pos hpa] at h; simpa using h.symm
      subst hi0
      constructor
      · exact ⟨a, by simp, hpa⟩
      · intro j c hj hc
        cases j with
        | zero => omega
        | succ j2 =>
          rw [List.getElem?_cons_succ] at hc
          exact findLastIdx_none_spec p as hfl j2 c hc

theorem updateAt_getElem?_self (f : α → α) (l : List α) :
    ∀ i, (updateAt f i l)[i]? = l[i]?.map f := by
  induction l with
  | nil => intro i; cases i <;> rfl
  | cons a as ih =>
    intro i
    cases i with
    | zero =>
      have e : updateAt f 0 (a :: as) = f a :: as := rfl
      rw [e]; simp
    | succ j =>
      have e : updateAt f (j + 1) (a :: as) = a :: updateAt f j as := rfl
      rw [e, List.getElem?_cons_succ, List.getElem?_cons_succ]
      exact ih j

theorem updateAt_getElem?_ne (f : α → α) (l : List α) :
    ∀ i j, j ≠ i → (updateAt f i l)[j]? = l[j]? := by
  induction l with
  | nil => intro i j _; cases i <;> rfl
  | cons a as ih =>
    intro i j hne
    cases i with
    | zero =>
      have e : updateAt f 0 (a :: as) = f a :: as := rfl
      cases j with
      | zero => exact absurd rfl hne
      | succ j2 => rw [e, List.getElem?_cons_succ, List.getElem?_cons_succ]
    | succ i2 =>
      have e : updateAt f (i2 + 1) (a :: as) = a :: updateAt f i2 as := rfl
      cases j with
      | zero => rw [e]; simp
      | succ j2 =>
        rw [e, List.getElem?_cons_succ, List.getElem?_cons_succ]
        exact ih i2 j2 (by omega)

theorem updateAt_length (f : α → α) (l : List α) :
    ∀ i, (updateAt f i l).length = l.length := by
  induction l with
  | nil => intro i; cases i <;> rfl
  | cons a as ih =>
    intro i
    cases i with
    | zero => rfl
    | succ j =>
      have e : updateAt f (j + 1) (a :: as) = a :: updateAt f j as := rfl
      rw [e, List.length_cons, List.length_cons, ih j]

theorem addToLogs_state (m : Mischief) (msg : String) (w : Bool) (tr : String) :
    (m.addToLogs msg w tr).state = m.state := rfl

theorem addToLogs_totalSize (m : Mischief) (msg : String) (w : Bool) (tr : String) :
    (m.addToLogs msg w tr).totalSize = m.totalSize := rfl

theorem addToLogs_exchanges (m : Mischief) (msg : String) (w : Bool) (tr : String) :
    (m.addToLogs msg w tr).exchanges = m.exchanges := rfl

theorem addToLogs_count (m : Mischief) (msg : String) (w : Bool) (tr : String) :
    (m.addToLogs msg w tr).browserCloseCount = m.browserCloseCount := rfl

/-- The capture just after the buffer append and size accounting of
`networkInterception`, before the budget check. -/
def ingestMid (m : Mischief) (type : String) (data : Bytes) (sid : String) : Mischief :=
  { (m.getOrInitExchange sid type).2 with
    exchanges := updateAt (fun ex => appendRaw ex type data)
      (m.getOrInitExchange sid type).1 (m.getOrInitExchange sid type).2.exchanges,
    totalSize := (m.getOrInitExchange sid type).2.totalSize + data.length }

theorem ingestMid_totalSize (m : Mischief) (type : String) (data : Bytes) (sid : String) :
    (ingestMid m type data sid).totalSize = m.totalSize + data.length := by
  unfold ingestMid
  rw [show ({ (m.getOrInitExchange sid type).2 with
    exchanges := updateAt (fun ex => appendRaw ex type data)
      (m.getOrInitExchange sid type).1 (m.getOrInitExchange sid type).2.exchanges,
    totalSize := (m.getOrInitExchange sid type).2.totalSize + data.length } : Mischief).totalSize
    = (m.getOrInitExchange sid type).2.totalSize + data.length from rfl]
  rw [(getOrInitExchange_frame m sid type).1]

theorem ingestMid_state (m : Mischief) (type : String) (data : Bytes) (sid : String) :
    (ingestMid m type data sid).state = m.state := by
  unfold ingestMid
  rw [show ({ (m.getOrInitExchange sid type).2 with
    exchanges := updateAt (fun ex => appendRaw ex type data)
      (m.getOrInitExchange sid type).1 (m.getOrInitExchange sid type).2.exchanges,
    totalSize := (m.getOrInitExchange sid type).2.totalSize + data.length } : Mischief).state
    = (m.getOrInitExchange sid type).2.state from rfl]
  exact (getOrInitExchange_frame m sid type).2.1

theorem ingestMid_count (m : Mischief) (type : String) (data : Bytes) (sid : String) :
    (ingestMid m type data sid).browserCloseCount = m.browserCloseCount := by
  unfold ingestMid
  rw [show ({ (m.getOrInitExchange sid type).2 with
    exchanges := updateAt (fun ex => appendRaw ex type data)
      (m.getOrInitExchange sid type).1 (m.getOrInitExchange sid type).2.exchanges,
    totalSize := (m.getOrInitExchange sid type).2.totalSize + data.length } : Mischief).browserCloseCount
    = (m.getOrInitExchange sid type).2.browserCloseCount from rfl]
  exact (getOrInitExchange_frame m sid type).2.2.2.1

theorem ingestMid_logs (m : Mischief) (type : String) (data : Bytes) (sid : String) :
    (ingestMid m type data sid).logs = m.logs := by
  unfold ingestMid
  rw [show ({ (m.getOrInitExchange sid type).2 with
    exchanges := updateAt (fun ex => appendRaw ex type data)
      (m.getOrInitExchange sid type).1 (m.getOrInitExchange sid type).2.exchanges,
    totalSize := (m.getOrInitExchange sid type).2.totalSize + data.length } : Mischief).logs
    = (m.getOrInitExchange sid type).2.logs from rfl]
  exact (getOrInitExchange_frame m sid type).2.2.1

theorem ingestMid_exchanges (m : Mischief) (type : String) (data : Bytes) (sid : String) :
    (ingestMid m type data sid).exchanges = updateAt (fun ex => appendRaw ex type data)
      (m.getOrInitExchange sid type).1 (m.getOrInitExchange sid type).2.exchanges := rfl

theorem networkInterception_eq (m : Mischief) (type : String) (data : Bytes) (sid : String) :
    m.networkInterception type data sid =
      if m.options.maxSize ≤ m.totalSize + data.length && m.state == Mischief.states.CAPTURE then
        Mischief.teardown ((ingestMid m type data sid).addToLogs
          "Max size reached. Ending further capture." false "")
      else ingestMid m type data sid := by
  unfold Mischief.networkInterception
  dsimp only
  have hc : (({ (m.getOrInitExchange sid type).2 with
      exchanges := updateAt (fun ex => appendRaw ex type data)
        (m.getOrInitExchange sid type).1 (m.getOrInitExchange sid type).2.exchanges,
      totalSize := (m.getOrInitExchange sid type).2.totalSize + data.length } : Mischief).options.maxSize
      ≤ ({ (m.getOrInitExchange sid type).2 with
      exchanges := updateAt (fun ex => appendRaw ex type data)
        (m.getOrInitExchange sid type).1 (m.getOrInitExchange sid type).2.exchanges,
      totalSize := (m.getOrInitExchange sid type).2.totalSize + data.length } : Mischief).totalSize
      && ({ (m.getOrInitExchange sid type).2 with
      exchanges := updateAt (fun ex => appendRaw ex type data)
        (m.getOrInitExchange sid type).1 (m.getOrInitExchange sid type).2.exchanges,
      totalSize := (m.getOrInitExchange sid type).2.totalSize + data.length } : Mischief).state
      == Mischief.states.CAPTURE)
      = (m.options.maxSize ≤ m.totalSize + data.length && m.state == Mischief.states.CAPTURE) := by
    rw [show ({ (m.getOrInitExchange sid type).2 with
      exchanges := updateAt (fun ex => appendRaw ex type data)
        (m.getOrInitExchange sid type).1 (m.getOrInitExchange sid type).2.exchanges,
      totalSize := (m.getOrInitExchange sid type).2.totalSize + data.length } : Mischief).options
      = (m.getOrInitExchange sid type).2.options from rfl]
    rw [show ({ (m.getOrInitExchange sid type).2 with
      exchanges := updateAt (fun ex => appendRaw ex type data)
        (m.getOrInitExchange sid type).1 (m.getOrInitExchange sid type).2.exchanges,
      totalSize := (m.getOrInitExchange sid type).2.totalSize + data.length } : Mischief).totalSize
      = (m.getOrInitExchange sid type).2.totalSize + data.length from rfl]
    rw [show ({ (m.getOrInitExchange sid type).2 with
      exchanges := updateAt (fun ex => appendRaw ex type data)
        (m.getOrInitExchange sid type).1 (m.getOrInitExchange sid type).2.exchanges,
      totalSize := (m.getOrInitExchange sid type).2.totalSize + data.length } : Mischief).state
      = (m.getOrInitExchange sid type).2.state from rfl]
    rw [(getOrInitExchange_frame m sid type).1, (getOrInitExchange_frame m sid type).2.1,
        (getOrInitExchange_frame m sid type).2.2.2.2]
  rw [hc]
  rfl

theorem networkInterception_totalSize (m : Mischief) (type : String) (data : Bytes) (sid : String) :
    (m.networkInterception type data sid).totalSize = m.totalSize + data.length := by
  rw [networkInterception_eq]
  split
  · rw [teardown_totalSize, addToLogs_totalSize, ingestMid_totalSize]
  · rw [ingestMid_totalSize]

theorem networkInterception_exchanges (m : Mischief) (type : String) (data : Bytes) (sid : String) :
    (m.networkInterception type data sid).exchanges =
      updateAt (fun ex => appendRaw ex type data)
        (m.getOrInitExchange sid type).1 (m.getOrInitExchange sid type).2.exchanges := by
  rw [networkInterception_eq]
  split
  · rw [teardown_exchanges, addToLogs_exchanges, ingestMid_exchanges]
  · rw [ingestMid_exchanges]

theorem networkInterception_state_count (m : Mischief) (type : String) (data : Bytes) (sid : String) :
    ((m.networkInterception type data sid).state = m.state ∧
     (m.networkInterception type data sid).browserCloseCount = m.browserCloseCount) ∨
    (m.state = Mischief.states.CAPTURE ∧
     (m.networkInterception type data sid).state = Mischief.states.TEARDOWN ∧
     (m.networkInterception type data sid).browserCloseCount = m.browserCloseCount + 1) := by
  rw [networkInterception_eq]
  split
  · next hcond =>
    right
    have hst : m.state = Mischief.states.CAPTURE := by
      have h2 := (Bool.and_eq_true _ _).mp hcond
      exact beq_iff_eq.mp h2.2
    refine ⟨hst, teardown_state _, ?_⟩
    rw [teardown_count_of_ne, addToLogs_count, ingestMid_count]
    rw [addToLogs_state, ingestMid_state, hst]
    decide
  · left
    exact ⟨ingestMid_state m type data sid, ingestMid_count m type data sid⟩

theorem networkInterception_state_of_ne (m : Mischief) (type : String) (data : Bytes) (sid : String)
    (h : m.state ≠ Mischief.states.CAPTURE) :
    (m.networkInterception type data sid).state = m.state := by
  rcases networkInterception_state_count m type data sid with ⟨hs, _⟩ | ⟨hm, _, _⟩
  · exact hs
  · exact absurd hm h

theorem networkInterception_breach (m : Mischief) (type : String) (data : Bytes) (sid : String)
    (hst : m.state = Mischief.states.CAPTURE)
    (hsz : m.options.maxSize ≤ m.totalSize + data.length) :
    m.networkInterception type data sid =
      Mischief.teardown ((ingestMid m type data sid).addToLogs
        "Max size reached. Ending further capture." false "") := by
  rw [networkInterception_eq]
  rw [if_pos (by simp [hst, hsz])]

/-- The teardown-count invariant tying the lifecycle state to the number
of browser closes performed since the capture entered `CAPTURE` with
count `base`: still capturing and not yet closed, or torn down and
closed exactly once. -/
def tdInv (base : Nat) (x : Mischief) : Prop :=
  (x.state = Mischief.states.CAPTURE ∧ x.browserCloseCount = base) ∨
  (x.state = Mischief.states.TEARDOWN ∧ x.browserCloseCount = base + 1)

theorem tdInv_networkInterception (base : Nat) (m : Mischief) (type : String) (data : Bytes)
    (sid : String) (h : tdInv base m) : tdInv base (m.networkInterception type data sid) := by
  rcases networkInterception_state_count m type data sid with ⟨hs, hc⟩ | ⟨hm, hs, hc⟩
  · rcases h with ⟨h1, h2⟩ | ⟨h1, h2⟩
    · exact Or.inl ⟨hs.trans h1, hc.trans h2⟩
    · exact Or.inr ⟨hs.trans h1, hc.trans h2⟩
  · rcases h with ⟨h1, h2⟩ | ⟨h1, h2⟩
    · exact Or.inr ⟨hs, by rw [hc, h2]⟩
    · rw [h1] at hm; exact absurd hm (by decide)

theorem tdInv_addToLogs (base : Nat) (m : Mischief) (msg : String) (w : Bool) (tr : String)
    (h : tdInv base m) : tdInv base (m.addToLogs msg w tr) := h

theorem tdInv_runChunks (base : Nat) (cs : List Chunk) :
    ∀ m : Mischief, tdInv base m → tdInv base (runChunks m cs) := by
  induction cs with
  | nil => intro m h; exact h
  | cons c cs2 ih =>
    intro m h
    exact ih _ (tdInv_networkInterception base m c.type c.data c.sessionId h)

theorem tdInv_runStep (base : Nat) (m : Mischief) (step : StepRun) (i total : Nat)
    (h : tdInv base m) : tdInv base (m.runStep step i total) := by
  have h1 := tdInv_addToLogs base m (stepMsg i total step.name) false "" h
  have h2 := tdInv_runChunks base step.chunks _ h1
  simp only [Mischief.runStep]
  split
  · split
    · exact tdInv_addToLogs _ _ _ _ _ h2
    · exact tdInv_addToLogs _ _ _ _ _ h2
  · exact h2

theorem tdInv_captureLoop (base total : Nat) (steps : List StepRun) :
    ∀ (i : Nat) (m : Mischief), tdInv base m →
      tdInv base (Mischief.captureLoop total steps i m) := by
  induction steps with
  | nil => intro i m h; exact h
  | cons step rest ih =>
    intro i m h
    have h1 := tdInv_runStep base m step i total h
    simp only [Mischief.captureLoop]
    split
    · exact ih (i + 1) _ h1
    · exact h1

theorem tdInv_teardown (base : Nat) (x : Mischief) (h : tdInv base x) :
    x.teardown.browserCloseCount = base + 1 ∧ x.teardown.state = Mischief.states.TEARDOWN := by
  rcases h with ⟨h1, h2⟩ | ⟨h1, h2⟩
  · refine ⟨?_, teardown_state x⟩
    rw [teardown_count_of_ne x (by rw [h1]; decide), h2]
  · rw [teardown_of_eq x h1]
    exact ⟨h2, h1⟩

theorem runStep_state (m : Mischief) (step : StepRun) (i total : Nat) :
    (m.runStep step i total).state =
      (runChunks (m.addToLogs (stepMsg i total step.name) false "") step.chunks).state := by
  simp only [Mischief.runStep]
  split
  · split
    · rw [addToLogs_state]
    · rw [addToLogs_state]
  · rfl

theorem runChunks_state_of_ne (cs : List Chunk) :
    ∀ m : Mischief, m.state ≠ Mischief.states.CAPTURE → (runChunks m cs).state = m.state := by
  induction cs with
  | nil => intro m _; rfl
  | cons c cs2 ih =>
    intro m h
    have h1 := networkInterception_state_of_ne m c.type c.data c.sessionId h
    have h2 : (m.networkInterception c.type c.data c.sessionId).state ≠ Mischief.states.CAPTURE := by
      rw [h1]; exact h
    show (runChunks (m.networkInterception c.type c.data c.sessionId) cs2).state = m.state
    rw [ih _ h2, h1]

theorem runStep_state_of_ne (m : Mischief) (step : StepRun) (i total : Nat)
    (h : m.state ≠ Mischief.states.CAPTURE) :
    (m.runStep step i total).state = m.state := by
  rw [runStep_state]
  have : (m.addToLogs (stepMsg i total step.name) false "").state = m.state := addToLogs_state m _ _ _
  rw [runChunks_state_of_ne step.chunks _ (by rw [this]; exact h), this]

theorem captureLoop_stop (m : Mischief) (step : StepRun) (rest : List StepRun) (i total : Nat)
    (h : (m.runStep step i total).state ≠ Mischief.states.CAPTURE) :
    Mischief.captureLoop total (step :: rest) i m = m.runStep step i total := by
  show (let m1 := m.runStep step i total;
      if m1.state == Mischief.states.CAPTURE && decide (i < total - 1) then
        Mischief.captureLoop total rest (i + 1) m1
      else m1) = m.runStep step i total
  rw [if_neg (by simp [h])]

theorem captureLoop_continue (m : Mischief) (step : StepRun) (rest : List StepRun) (i total : Nat)
    (h1 : (m.runStep step i total).state = Mischief.states.CAPTURE) (h2 : i < total - 1) :
    Mischief.captureLoop total (step :: rest) i m =
      Mischief.captureLoop total rest (i + 1) (m.runStep step i total) := by
  show (let m1 := m.runStep step i total;
      if m1.state == Mischief.states.CAPTURE && decide (i < total - 1) then
        Mischief.captureLoop total rest (i + 1) m1
      else m1) = Mischief.captureLoop total rest (i + 1) (m.runStep step i total)
  rw [if_pos (by simp [h1, h2])]

theorem runStep_fail_last_log (m : Mischief) (step : StepRun) (i total : Nat)
    (hf : step.fails = true) (hst : (m.runStep step i total).state = Mischief.states.CAPTURE) :
    (m.runStep step i total).logs.getLast? = some
      { message := stepMsg i total step.name ++ " - failed", isWarning := true,
        trace := step.err } := by
  have hst2 : (runChunks (m.addToLogs (stepMsg i total step.name) false "") step.chunks).state
      = Mischief.states.CAPTURE := by
    rw [← runStep_state]; exact hst
  unfold Mischief.runStep
  rw [if_pos hf, if_pos (by simp [hst2])]
  unfold Mischief.addToLogs
  simp

/-! ## Helper lemmas: constructor key filtering and container paths -/

theorem jsObjSet_keys_subset (obj : List (String × α)) (k : String) (v : α) :
    ∀ x ∈ (jsObjSet obj k v).map Prod.fst, x ∈ obj.map Prod.fst ∨ x = k := by
  intro x hx
  unfold jsObjSet at hx
  split at hx
  · obtain ⟨p, hp, hpx⟩ := List.mem_map.mp hx
    obtain ⟨q, hq, hqp⟩ := List.mem_map.mp hp
    by_cases hqk : q.1 = k
    · right
      rw [if_pos (by simp [hqk])] at hqp
      rw [← hqp] at hpx
      exact hpx.symm
    · left
      rw [if_neg (by simp [hqk])] at hqp
      rw [← hqp] at hpx
      rw [← hpx]
      exact List.mem_map_of_mem Prod.fst hq
  · rw [List.map_append] at hx
    rcases List.mem_append.mp hx with h1 | h2
    · exact Or.inl h1
    · right; simpa using h2

/-- The keys that can ever appear as own properties of a constructed
exchange: the four declared fields, plus the inherited data members that
assignment shadows. -/
def exchangeOwnAllowedKeys : List String :=
  "date" :: "id" :: "_request" :: "_response" :: prototypeDataKeys

/-- Every key the `in` operator finds on the instance or its prototype
chain. -/
def exchangeChainKeys : List String :=
  "date" :: "id" :: "_request" :: "_response" ::
    (prototypeAccessorKeys ++ prototypeDataKeys)

theorem exchangeOwnAllowedKeys_subset_chain :
    ∀ y ∈ exchangeOwnAllowedKeys, y ∈ exchangeChainKeys := by
  intro y hy
  unfold exchangeOwnAllowedKeys at hy
  unfold exchangeChainKeys
  simp only [List.mem_cons, List.mem_append] at hy ⊢
  rcases hy with h | h | h | h | h
  · exact Or.inl h
  · exact Or.inr (Or.inl h)
  · exact Or.inr (Or.inr (Or.inl h))
  · exact Or.inr (Or.inr (Or.inr (Or.inl h)))
  · exact Or.inr (Or.inr (Or.inr (Or.inr (Or.inr h))))

theorem exchangeConstructorStep_keys_subset (obj : List (String × Option JSVal))
    (kv : String × JSVal)
    (h : ∀ x ∈ obj.map Prod.fst, x ∈ exchangeOwnAllowedKeys) :
    ∀ x ∈ (exchangeConstructorStep obj kv).map Prod.fst, x ∈ exchangeOwnAllowedKeys := by
  intro x hx
  unfold exchangeConstructorStep at hx
  by_cases hk : exchangeHasKey obj kv.1 = true
  · rw [if_pos hk] at hx
    by_cases hreq : kv.1 = "request"
    · rw [if_pos (by simp [hreq])] at hx
      rcases jsObjSet_keys_subset obj "_request" (some kv.2) x hx with h1 | h1
      · exact h x h1
      · rw [h1]; decide
    · rw [if_neg (by simp [hreq])] at hx
      by_cases hres : kv.1 = "response"
      · rw [if_pos (by simp [hres])] at hx
        rcases jsObjSet_keys_subset obj "_response" (some kv.2) x hx with h1 | h1
        · exact h x h1
        · rw [h1]; decide
      · rw [if_neg (by simp [hres])] at hx
        by_cases hproto : kv.1 = "__proto__"
        · rw [if_pos (by simp [hproto])] at hx
          exact h x hx
        · rw [if_neg (by simp [hproto])] at hx
          rcases jsObjSet_keys_subset obj kv.1 (some kv.2) x hx with h1 | h1
          · exact h x h1
          · rw [h1]
            unfold exchangeHasKey at hk
            rcases (Bool.or_eq_true _ _).mp hk with h2 | h3
            · rcases (Bool.or_eq_true _ _).mp h2 with h4 | h5
              · obtain ⟨p, hp, hpk⟩ := List.any_eq_true.mp h4
                exact h kv.1 (List.mem_map.mpr ⟨p, hp, by simpa using hpk⟩)
              · have hmem : kv.1 ∈ prototypeAccessorKeys := by simpa using h5
                simp only [prototypeAccessorKeys, List.mem_cons, List.not_mem_nil,
                  or_false] at hmem
                rcases hmem with h6 | h6 | h6
                · exact absurd h6 hreq
                · exact absurd h6 hres
                · exact absurd h6 hproto
            · have hmem : kv.1 ∈ prototypeDataKeys := by simpa using h3
              unfold exchangeOwnAllowedKeys
              simp only [List.mem_cons]
              exact Or.inr (Or.inr (Or.inr (Or.inr hmem)))
  · rw [if_neg hk] at hx
    exact h x hx

theorem mischiefExchangeNew_keys_subset (dateNow : JSVal) (props : List (String × JSVal)) :
    ∀ x ∈ (mischiefExchangeNew dateNow props).map Prod.fst, x ∈ exchangeOwnAllowedKeys := by
  unfold mischiefExchangeNew
  have hgen : ∀ (ps : List (String × JSVal)) (obj : List (String × Option JSVal)),
      (∀ x ∈ obj.map Prod.fst, x ∈ exchangeOwnAllowedKeys) →
      ∀ x ∈ (ps.foldl exchangeConstructorStep obj).map Prod.fst,
        x ∈ exchangeOwnAllowedKeys := by
    intro ps
    induction ps with
    | nil => intro obj h; exact h
    | cons kv rest ih =>
      intro obj h
      exact ih _ (exchangeConstructorStep_keys_subset obj kv h)
  refine hgen props (exchangeInitProps dateNow) ?_
  intro x hx
  have he : (exchangeInitProps dateNow).map Prod.fst
      = ["date", "id", "_request", "_response"] := rfl
  rw [he] at hx
  simp only [List.mem_cons, List.not_mem_nil, or_false] at hx
  rcases hx with h | h | h | h <;> (rw [h]; decide)

theorem jsObjGet_eq_none_of_not_key (obj : List (String × α)) (k : String)
    (h : k ∉ obj.map Prod.fst) : jsObjGet obj k = none := by
  unfold jsObjGet
  rw [List.find?_eq_none.mpr]
  · rfl
  · intro p hp
    simp only [beq_iff_eq]
    intro he
    exact h (List.mem_map.mpr ⟨p, hp, he⟩)

theorem data_head?_append (s t : String) (c : Char) (h : s.data.head? = some c) :
    (s ++ t).data.head? = some c := by
  rw [String.data_append]
  cases hs : s.data with
  | nil => rw [hs] at h; exact absurd h (by simp)
  | cons a as =>
    rw [hs] at h
    simp only [List.head?] at h
    rw [List.cons_append, List.head?_cons, h]

theorem rawPath_head (type : String) (ex : MischiefExchange) :
    (rawPath type ex).data.head? = some 'r' := by
  unfold rawPath
  apply data_head?_append
  apply data_head?_append
  apply data_head?_append
  apply data_head?_append
  apply data_head?_append
  rfl

theorem rawPath_ne_warc (type : String) (ex : MischiefExchange) :
    rawPath type ex ≠ "archive/data.warc" := by
  intro h
  have h1 := rawPath_head type ex
  rw [h] at h1
  have h2 : ("archive/data.warc" : String).data.head? = some 'a' := rfl
  rw [h2] at h1
  simp at h1

theorem validStates_contains (s : Nat) :
    validStates.contains s
      = (s == Mischief.states.PARTIAL || s == Mischief.states.COMPLETE) := by
  simp [validStates, List.contains, Bool.beq_eq_decide_eq,
        Mischief.states.PARTIAL, Mischief.states.COMPLETE]

theorem capture_false_spec (m : Mischief) (steps : List StepRun) :
    ∀ m2, m.capture false steps = Except.ok m2 →
      m2.state = Mischief.states.COMPLETE ∧
      m2.browserCloseCount = m.browserCloseCount + 1 := by
  intro m2 h
  simp only [Mischief.capture, Bool.false_eq_true, if_false] at h
  injection h with hm2
  subst hm2
  refine ⟨rfl, ?_⟩
  have hinv0 : tdInv m.browserCloseCount
      { ({ m with state := Mischief.states.SETUP } : Mischief).addToLogs
          ("Starting capture of " ++ ({ m with state := Mischief.states.SETUP } : Mischief).url
            ++ " with options.") false "" with
        state := Mischief.states.CAPTURE } := Or.inl ⟨rfl, rfl⟩
  have hinv1 := tdInv_captureLoop m.browserCloseCount steps.length steps 0 _ hinv0
  have hfin := tdInv_teardown m.browserCloseCount _ hinv1
  exact hfin.1

/-! ## Concrete fixtures used by the witness theorems -/

/-- A capture in state `CAPTURE` with an ample budget and an empty store. -/
def freshCapture : Mischief :=
  { state := Mischief.states.CAPTURE, url := "https://example.com/",
    options := { maxSize := 1000000, provenanceSummary := true },
    exchanges := [], generatedExchanges := [], logs := [], totalSize := 0,
    provenanceInfo := none, browserCloseCount := 0 }

/-- A completed proxy exchange on session `sess-1`. -/
def sessionExchange : MischiefExchange :=
  { id := some "sess-1", date := 0, requestRaw := some [1], responseRaw := some [2],
    _request := none, _response := none }

/-- A capture holding a completed exchange and a second, still-open
exchange on the same session. -/
def twoPairCapture : Mischief :=
  { freshCapture with
    exchanges := [sessionExchange, { sessionExchange with requestRaw := some [3], responseRaw := none }] }

/-- A capture in `CAPTURE` whose next chunk exceeds the budget. -/
def budgetCapture : Mischief :=
  { freshCapture with options := { maxSize := 4, provenanceSummary := false }, totalSize := 3 }

/-- A synthesized response payload. -/
def msgW : ParsedMessage :=
  { headers := ["Content-Type", "image/png"], versionMajor := 1, versionMinor := 1,
    statusCode := 200, statusMessage := "OK", body := [7, 7] }

/-- An entry-point generated exchange (a screenshot). -/
def genW : MischiefGeneratedExchange :=
  { date := 9, url := "file:///screenshot.png", isEntryPoint := true, response := msgW }

/-- A completed capture ready for encoding. -/
def doneCapture : Mischief :=
  { state := Mischief.states.COMPLETE, url := "https://example.com/",
    options := { maxSize := 1000000, provenanceSummary := true },
    exchanges := [sessionExchange], generatedExchanges := [genW], logs := [],
    totalSize := 3, provenanceInfo := some [("capture", "test")], browserCloseCount := 1 }

/-- A completed capture with provenance recorded but the
`provenanceSummary` export option off. -/
def noProvCapture : Mischief :=
  { state := Mischief.states.COMPLETE, url := "https://example.com/",
    options := { maxSize := 1000000, provenanceSummary := false },
    exchanges := [sessionExchange], generatedExchanges := [genW], logs := [],
    totalSize := 3, provenanceInfo := some [("capture", "test")], browserCloseCount := 1 }

/-- An exchange on session `sess-1`, created at time 0, with response
bytes `[1]`. -/
def collideEx1 : MischiefExchange :=
  { id := some "sess-1", date := 0, requestRaw := none, responseRaw := some [1],
    _request := none, _response := none }

/-- A second exchange on the same session with the same creation time —
its raw payload path collides with that of `collideEx1`. -/
def collideEx2 : MischiefExchange := { collideEx1 with responseRaw := some [2] }

/-- A completed capture holding the two path-colliding exchanges. -/
def collideCapture : Mischief :=
  { state := Mischief.states.COMPLETE, url := "https://example.com/",
    options := { maxSize := 1000000, provenanceSummary := false },
    exchanges := [collideEx1, collideEx2], generatedExchanges := [], logs := [],
    totalSize := 2, provenanceInfo := none, browserCloseCount := 1 }

/-- A pipeline step that throws without delivering traffic. -/
def stepFailW : StepRun := { name := "auto-scroll", chunks := [], fails := true, err := "boom" }

/-- A pipeline step that succeeds without delivering traffic. -/
def stepIdleW : StepRun := { name := "network idle", chunks := [], fails := false, err := "" }

/-! ## Claim theorems -/

/-- C5: for every capture whose state is not `PARTIAL` and not `COMPLETE`
(`INIT`, `SETUP`, `CAPTURE`, `TEARDOWN`, or `ERROR`), `mischiefToWacz`
fails with the invalid-state error; for `PARTIAL` or `COMPLETE` it does
not raise that error — the encoder result is `ok` exactly on the two
archivable states. -/
theorem encode_requires_terminal_state (m : Mischief) (includeRaw : Bool) :
    exceptIsOk (mischiefToWacz m includeRaw)
      = (m.state == Mischief.states.PARTIAL || m.state == Mischief.states.COMPLETE) := by
  unfold mischiefToWacz
  split
  · next h =>
    have h2 : validStates.contains m.state = false := by
      cases hx : validStates.contains m.state
      · rfl
      · rw [hx] at h; simp at h
    rw [← validStates_contains, h2]
    rfl
  · next h =>
    have h2 : validStates.contains m.state = true := by
      cases hx : validStates.contains m.state
      · rw [hx] at h; simp at h
      · rfl
    rw [← validStates_contains, h2]
    rfl

/-- C7: `teardown` is idempotent. Invoking it on a capture whose state is
already `TEARDOWN` is a no-op, so across any pair of invocations the
browser/proxy release runs exactly once, the state is left at `TEARDOWN`,
and the second invocation returns without doing anything (the modelled
function is total, so no error is raised). -/
theorem teardown_idempotent (m : Mischief) (h : m.state ≠ Mischief.states.TEARDOWN) :
    m.teardown.teardown = m.teardown ∧
    m.teardown.state = Mischief.states.TEARDOWN ∧
    m.teardown.browserCloseCount = m.browserCloseCount + 1 ∧
    m.teardown.teardown.browserCloseCount = m.browserCloseCount + 1 := by
  have hid : m.teardown.teardown = m.teardown := teardown_of_eq _ (teardown_state m)
  have hc := teardown_count_of_ne m h
  exact ⟨hid, teardown_state m, hc, by rw [hid, hc]⟩

/-- Witness for C7 at a concrete capture in state `CAPTURE`. -/
theorem teardown_idempotent_witness :
    freshCapture.teardown.teardown = freshCapture.teardown ∧
    freshCapture.teardown.state = Mischief.states.TEARDOWN ∧
    freshCapture.teardown.browserCloseCount = freshCapture.browserCloseCount + 1 ∧
    freshCapture.teardown.teardown.browserCloseCount = freshCapture.browserCloseCount + 1 :=
  teardown_idempotent freshCapture (by decide)

/-- C10 counterexample: the claim as stated — only the declared keys
(`date`, `id`, `request`/`_request`, `response`/`_response`) are copied
and every other key is discarded — is false: `toString` is none of those
keys, yet `key in this` finds it on the prototype chain
(`Object.prototype`), so `new MischiefExchange({toString: v})` retains it
as an own property. -/
theorem exchange_constructor_counterexample :
    "toString" ∉ ["date", "id", "_request", "_response", "request", "response"] ∧
    jsObjGet (mischiefExchangeNew (JSVal.num 0) [("toString", JSVal.num 7)]) "toString"
      = some (some (JSVal.num 7)) :=
  ⟨by decide, rfl⟩

/-- C10 (amended): the `MischiefExchange` constructor copies from `props`
only keys the `in` operator finds on the instance or its prototype chain
— the declared fields `date`/`id`/`_request`/`_response`, the
`request`/`response` accessors (stored into `_request`/`_response`), the
inherited data members (`constructor`, `toString`, `valueOf`, ...) which
assignment shadows as own properties, and `__proto__`, whose inherited
setter creates no own property — and silently discards every key found
nowhere on the chain. In particular the `url` property passed when the
controller synthesizes the screenshot exchange is not retained, while
its `response` value lands in `_response` through the accessor. -/
theorem exchange_constructor_drops_unknown_keys (dateNow : JSVal)
    (props : List (String × JSVal)) (k : String) (shot : Bytes)
    (hk : k ∉ exchangeChainKeys) :
    jsObjGet (mischiefExchangeNew dateNow props) k = none ∧
    jsObjGet (mischiefExchangeNew dateNow (screenshotProps shot)) "url" = none ∧
    jsObjGet (mischiefExchangeNew dateNow (screenshotProps shot)) "_response"
      = some (some (JSVal.obj
          [("headers", JSVal.arr [JSVal.str "Content-Type", JSVal.str "image/png"]),
           ("versionMajor", JSVal.num 1), ("versionMinor", JSVal.num 1),
           ("statusCode", JSVal.num 200), ("statusMessage", JSVal.str "OK"),
           ("body", JSVal.buf shot)])) := by
  refine ⟨?_, ?_, ?_⟩
  · apply jsObjGet_eq_none_of_not_key
    intro hmem
    exact hk (exchangeOwnAllowedKeys_subset_chain k
      (mischiefExchangeNew_keys_subset dateNow props k hmem))
  · rfl
  · rfl

/-- Witness for C10: the `status` key (found nowhere on the chain) is
discarded, and the concrete screenshot call drops `url`. -/
theorem exchange_constructor_witness :
    jsObjGet (mischiefExchangeNew (JSVal.num 0) [("status", JSVal.num 200)]) "status" = none ∧
    jsObjGet (mischiefExchangeNew (JSVal.num 0) (screenshotProps [5])) "url" = none ∧
    jsObjGet (mischiefExchangeNew (JSVal.num 0) (screenshotProps [5])) "_response"
      = some (some (JSVal.obj
          [("headers", JSVal.arr [JSVal.str "Content-Type", JSVal.str "image/png"]),
           ("versionMajor", JSVal.num 1), ("versionMinor", JSVal.num 1),
           ("statusCode", JSVal.num 200), ("statusMessage", JSVal.str "OK"),
           ("body", JSVal.buf [5])])) :=
  exchange_constructor_drops_unknown_keys (JSVal.num 0) [("status", JSVal.num 200)]
    "status" [5] (by decide)

theorem rawGet_setRawBuf (ex : MischiefExchange) (type : String) (b : Bytes)
    (h : type = "request" ∨ type = "response") :
    rawGet (setRawBuf ex type b) type = some b := by
  rcases h with h | h <;> subst h <;> rfl

theorem rawGet_appendRaw (ex : MischiefExchange) (type : String) (data : Bytes)
    (h : type = "request" ∨ type = "response") :
    rawGet (appendRaw ex type data) type = some ((rawGet ex type).getD [] ++ data) := by
  unfold appendRaw
  cases hr : rawGet ex type with
  | some old => rw [rawGet_setRawBuf _ _ _ h]; simp
  | none => rw [rawGet_setRawBuf _ _ _ h]; simp

theorem runChunks_totalSize (cs : List Chunk) :
    ∀ m : Mischief, (runChunks m cs).totalSize
      = m.totalSize + (cs.map (fun c => c.data.length)).sum := by
  induction cs with
  | nil => intro m; simp [runChunks]
  | cons c cs2 ih =>
    intro m
    show (runChunks (m.networkInterception c.type c.data c.sessionId) cs2).totalSize = _
    rw [ih _, networkInterception_totalSize]
    simp
    omega

/-- C2: each ingested chunk goes to the most-recently-created exchange
whose id equals the session id and which either receives a response
chunk, or receives a request chunk and has no response buffer yet; if no
exchange matches, a fresh exchange with that session id is appended at
the end of the store. In particular two sequential request/response pairs
on session `sess-1` yield exactly two exchanges with distinct request and
response bytes. -/
theorem ingest_selects_most_recent_matching_exchange (m : Mischief) (id type : String) :
    ((∀ i : Nat, findLastIdx (exMatch id type) m.exchanges = some i →
        m.getOrInitExchange id type = (i, m) ∧
        (∃ ex, m.exchanges[i]? = some ex ∧ exMatch id type ex = true) ∧
        (∀ (j : Nat) (ex2 : MischiefExchange), i < j → m.exchanges[j]? = some ex2 →
          exMatch id type ex2 = false)) ∧
     (findLastIdx (exMatch id type) m.exchanges = none →
        m.getOrInitExchange id type =
          (m.exchanges.length, { m with exchanges := m.exchanges ++ [newExchange id] }))) ∧
    ((((freshCapture.networkInterception "request" [1] "sess-1").networkInterception
        "response" [2] "sess-1").networkInterception "request" [3] "sess-1").networkInterception
        "response" [4] "sess-1").exchanges.length = 2 ∧
    ((((freshCapture.networkInterception "request" [1] "sess-1").networkInterception
        "response" [2] "sess-1").networkInterception "request" [3] "sess-1").networkInterception
        "response" [4] "sess-1").exchanges.map
          (fun ex => (ex.requestRaw, ex.responseRaw))
      = [(some [1], some [2]), (some [3], some [4])] := by
  refine ⟨⟨?_, ?_⟩, by decide, by decide⟩
  · intro i hi
    obtain ⟨⟨ex, hex, hpex⟩, hafter⟩ := findLastIdx_some_spec (exMatch id type) m.exchanges i hi
    exact ⟨getOrInitExchange_found m id type i hi, ⟨ex, hex, hpex⟩, hafter⟩
  · intro hn
    exact getOrInitExchange_missing m id type hn

/-- Witness for C2 at a store holding a completed and an open exchange on
the same session: a response chunk targets the most recent exchange. -/
theorem ingest_selects_witness :
    twoPairCapture.getOrInitExchange "sess-1" "response" = (1, twoPairCapture) :=
  ((ingest_selects_most_recent_matching_exchange twoPairCapture "sess-1" "response").1.1
    1 (by decide)).1

/-- C3: ingestion appends each chunk to the selected exchange by
concatenation (never replacement) and adds its length to `totalSize`, in
every controller state (there is no state guard on the append or the
accounting, so chunks arriving after teardown are still accepted);
`totalSize` after a chunk sequence equals the starting size plus the sum
of the chunk lengths, and it never decreases. -/
theorem ingest_appends_and_accounts (m : Mischief) (cs : List Chunk) (type : String)
    (data : Bytes) (sid : String) :
    ((runChunks m cs).totalSize = m.totalSize + (cs.map (fun c => c.data.length)).sum) ∧
    ((m.networkInterception type data sid).totalSize = m.totalSize + data.length) ∧
    (m.totalSize ≤ (m.networkInterception type data sid).totalSize) ∧
    ((type = "request" ∨ type = "response") →
      (∀ i : Nat, findLastIdx (exMatch sid type) m.exchanges = some i →
        ∀ ex, m.exchanges[i]? = some ex →
          (m.networkInterception type data sid).exchanges[i]? = some (appendRaw ex type data) ∧
          rawGet (appendRaw ex type data) type = some ((rawGet ex type).getD [] ++ data)) ∧
      (findLastIdx (exMatch sid type) m.exchanges = none →
        (m.networkInterception type data sid).exchanges[m.exchanges.length]? =
          some (appendRaw (newExchange sid) type data))) := by
  refine ⟨runChunks_totalSize cs m, networkInterception_totalSize m type data sid,
    by rw [networkInterception_totalSize]; omega, fun htype => ⟨?_, ?_⟩⟩
  · intro i hi ex hex
    rw [networkInterception_exchanges, getOrInitExchange_found m sid type i hi]
    refine ⟨?_, rawGet_appendRaw ex type data htype⟩
    rw [updateAt_getElem?_self, hex]
    rfl
  · intro hn
    rw [networkInterception_exchanges, getOrInitExchange_missing m sid type hn]
    rw [updateAt_getElem?_self]
    rw [List.getElem?_concat_length]
    rfl

/-- Witness for C3: ingesting a request chunk into an empty store (the
creation case) installs the chunk as the request buffer of the new exchange. -/
theorem ingest_appends_witness :
    (freshCapture.networkInterception "request" [9] "s").exchanges[0]? =
      some (appendRaw (newExchange "s") "request" [9]) := by
  have h := (ingest_appends_and_accounts freshCapture [] "request" [9] "s").2.2.2
    (Or.inl rfl)
  exact h.2 (by decide)

/-- C4: when an ingested chunk brings `totalSize` to at least `maxSize`
while the state is still `CAPTURE`, the budget notice is logged and
teardown runs (browser closed once, state `TEARDOWN`); the pipeline loop
then finishes only the step in flight and begins no further step, while
every previously stored exchange survives at its index (at most extended
by the very chunk that crossed the budget) and the crossing chunk itself
is kept whole in the accounting. -/
theorem budget_breach_teardown_and_stop (m : Mischief) (type : String) (data : Bytes)
    (sid : String) (total i : Nat) (step : StepRun) (rest : List StepRun)
    (hst : m.state = Mischief.states.CAPTURE)
    (hsz : m.options.maxSize ≤ m.totalSize + data.length) :
    ((m.networkInterception type data sid).state = Mischief.states.TEARDOWN) ∧
    ((m.networkInterception type data sid).logs = m.logs ++
      [{ message := "Max size reached. Ending further capture.", isWarning := false, trace := "" },
       { message := "Closing browser and proxy server.", isWarning := false, trace := "" }]) ∧
    ((m.networkInterception type data sid).browserCloseCount = m.browserCloseCount + 1) ∧
    ((m.networkInterception type data sid).totalSize = m.totalSize + data.length) ∧
    (∀ (j : Nat) (ex : MischiefExchange), m.exchanges[j]? = some ex →
      ∃ ex2, (m.networkInterception type data sid).exchanges[j]? = some ex2 ∧
        (ex2 = ex ∨ ex2 = appendRaw ex type data)) ∧
    ((Mischief.runStep (m.networkInterception type data sid) step i total).state
        = Mischief.states.TEARDOWN) ∧
    (Mischief.captureLoop total (step :: rest) i (m.networkInterception type data sid)
      = Mischief.runStep (m.networkInterception type data sid) step i total) := by
  have hbr := networkInterception_breach m type data sid hst hsz
  have hmidstate : ((ingestMid m type data sid).addToLogs
      "Max size reached. Ending further capture." false "").state
      ≠ Mischief.states.TEARDOWN := by
    rw [addToLogs_state, ingestMid_state, hst]
    decide
  have hstate1 : (m.networkInterception type data sid).state = Mischief.states.TEARDOWN := by
    rw [hbr]; exact teardown_state _
  have hlogs1 : (m.networkInterception type data sid).logs = m.logs ++
      [{ message := "Max size reached. Ending further capture.", isWarning := false, trace := "" },
       { message := "Closing browser and proxy server.", isWarning := false, trace := "" }] := by
    rw [hbr, teardown_logs_of_ne _ hmidstate]
    show ((ingestMid m type data sid).logs ++ _) ++ _ = _
    rw [ingestMid_logs, List.append_assoc]
    rfl
  have hcount1 : (m.networkInterception type data sid).browserCloseCount
      = m.browserCloseCount + 1 := by
    rw [hbr, teardown_count_of_ne _ hmidstate, addToLogs_count, ingestMid_count]
  have hretain : ∀ (j : Nat) (ex : MischiefExchange), m.exchanges[j]? = some ex →
      ∃ ex2, (m.networkInterception type data sid).exchanges[j]? = some ex2 ∧
        (ex2 = ex ∨ ex2 = appendRaw ex type data) := by
    have hexk := networkInterception_exchanges m type data sid
    intro j ex hj
    cases hfl : findLastIdx (exMatch sid type) m.exchanges with
    | some idx =>
      rw [getOrInitExchange_found m sid type idx hfl] at hexk
      by_cases hji : j = idx
      · subst hji
        refine ⟨appendRaw ex type data, ?_, Or.inr rfl⟩
        rw [hexk, updateAt_getElem?_self, hj]
        rfl
      · exact ⟨ex, by rw [hexk, updateAt_getElem?_ne _ _ _ _ hji]; exact hj, Or.inl rfl⟩
    | none =>
      rw [getOrInitExchange_missing m sid type hfl] at hexk
      have hjlt : j < m.exchanges.length := by
        by_contra hge
        rw [List.getElem?_eq_none (by omega)] at hj
        exact absurd hj (by simp)
      refine ⟨ex, ?_, Or.inl rfl⟩
      rw [hexk, updateAt_getElem?_ne _ _ _ _ (by omega)]
      show (m.exchanges ++ [newExchange sid])[j]? = some ex
      rw [List.getElem?_append_left hjlt]
      exact hj
  have hrs : (Mischief.runStep (m.networkInterception type data sid) step i total).state
      = Mischief.states.TEARDOWN := by
    rw [runStep_state_of_ne _ _ _ _ (by rw [hstate1]; decide), hstate1]
  refine ⟨hstate1, hlogs1, hcount1, networkInterception_totalSize m type data sid,
    hretain, hrs, ?_⟩
  exact captureLoop_stop _ _ _ _ _ (by rw [hrs]; decide)

/-- Witness for C4: a two-byte chunk pushes a three-byte capture past a
four-byte budget; teardown runs and the browser closes once. -/
theorem budget_breach_witness :
    (budgetCapture.networkInterception "response" [5, 6] "s").state
      = Mischief.states.TEARDOWN ∧
    (budgetCapture.networkInterception "response" [5, 6] "s").browserCloseCount
      = budgetCapture.browserCloseCount + 1 ∧
    (budgetCapture.networkInterception "response" [5, 6] "s").totalSize
      = budgetCapture.totalSize + 2 := by
  have h := budget_breach_teardown_and_stop budgetCapture "response" [5, 6] "s" 1 0
    stepIdleW [] rfl (by decide)
  exact ⟨h.1, h.2.2.1, h.2.2.2.1⟩

/-- C6: a step failure is logged (warning entry with the step trace) and
the loop advances to the next step while the state is still `CAPTURE`;
after the loop the capture always tears down (browser closed exactly
once across the whole run), sets state `COMPLETE` and returns it; only a
setup failure propagates to the caller. -/
theorem capture_step_failures_nonfatal (m : Mischief) (steps : List StepRun)
    (mc : Mischief) (step : StepRun) (rest : List StepRun) (i total : Nat) :
    (m.capture true steps = Except.error "SetupError") ∧
    (∀ m2, m.capture false steps = Except.ok m2 →
        m2.state = Mischief.states.COMPLETE ∧
        m2.browserCloseCount = m.browserCloseCount + 1) ∧
    (step.fails = true → (mc.runStep step i total).state = Mischief.states.CAPTURE →
      i < total - 1 →
      Mischief.captureLoop total (step :: rest) i mc =
        Mischief.captureLoop total rest (i + 1) (mc.runStep step i total) ∧
      (mc.runStep step i total).logs.getLast? = some
        { message := stepMsg i total step.name ++ " - failed", isWarning := true,
          trace := step.err }) := by
  refine ⟨rfl, capture_false_spec m steps, fun hf hst2 hlt => ⟨?_, ?_⟩⟩
  · exact captureLoop_continue mc step rest i total hst2 hlt
  · exact runStep_fail_last_log mc step i total hf hst2

/-- Witness for C6: a failing first step logs the failure and the loop
advances to the second step; a failing setup propagates. -/
theorem capture_step_failures_witness :
    freshCapture.capture true [] = Except.error "SetupError" ∧
    Mischief.captureLoop 2 [stepFailW, stepIdleW] 0 freshCapture =
      Mischief.captureLoop 2 [stepIdleW] 1 (freshCapture.runStep stepFailW 0 2) ∧
    (freshCapture.runStep stepFailW 0 2).logs.getLast? = some
      { message := stepMsg 0 2 stepFailW.name ++ " - failed", isWarning := true,
        trace := stepFailW.err } := by
  have h := capture_step_failures_nonfatal freshCapture [] freshCapture stepFailW
    [stepIdleW] 0 2
  have h3 := h.2.2 rfl (by decide) (by decide)
  exact ⟨h.1, h3.1, h3.2⟩

theorem mischiefToWacz_ok (m : Mischief) (includeRaw : Bool)
    (hstate : m.state = Mischief.states.PARTIAL ∨ m.state = Mischief.states.COMPLETE) :
    mischiefToWacz m includeRaw = Except.ok
      { files := if includeRaw then
          (rawWrites m.exchanges).foldl (fun fs kv => jsObjSet fs kv.1 kv.2)
            [("archive/data.warc", warcFile m)]
          else [("archive/data.warc", warcFile m)],
        pages := ((match m.exchanges with
          | [] => []
          | ex :: _ => [Sum.inl ex]) ++
          (m.generatedExchanges.filter (fun g => g.isEntryPoint)).map Sum.inr).map
            mischiefExchangeToPageLine,
        datapackageExtras := if m.options.provenanceSummary then m.provenanceInfo else none } := by
  unfold mischiefToWacz
  rw [if_neg]
  simp only [Bool.not_eq_true]
  rw [validStates_contains]
  rcases hstate with h | h <;> simp [h]

/-- C8: for every encoded capture with a nonempty store, the exported
page list is exactly the first exchange of the store followed by every
generated exchange flagged `isEntryPoint`, in generation order — so an
entry-point screenshot appears in the page list right after the root
page. -/
theorem encode_page_list_composition (m : Mischief) (includeRaw : Bool)
    (hstate : m.state = Mischief.states.PARTIAL ∨ m.state = Mischief.states.COMPLETE)
    (hne : m.exchanges ≠ []) :
    ∃ w, mischiefToWacz m includeRaw = Except.ok w ∧
      ∀ ex0, m.exchanges[0]? = some ex0 →
        w.pages = mischiefExchangeToPageLine (Sum.inl ex0) ::
          (m.generatedExchanges.filter (fun g => g.isEntryPoint)).map
            (fun g => mischiefExchangeToPageLine (Sum.inr g)) := by
  refine ⟨_, mischiefToWacz_ok m includeRaw hstate, ?_⟩
  intro ex0 h0
  show ((match m.exchanges with
    | [] => []
    | ex :: _ => [Sum.inl ex]) ++
    (m.generatedExchanges.filter (fun g => g.isEntryPoint)).map Sum.inr).map
      mischiefExchangeToPageLine = _
  cases hm : m.exchanges with
  | nil => exact absurd hm hne
  | cons a tl =>
    rw [hm] at h0
    simp only [List.getElem?_cons_zero, Option.some.injEq] at h0
    subst h0
    simp [List.map_map]

/-- Witness for C8: a completed capture with one stored exchange and one
entry-point screenshot exports a two-entry page list, root page first. -/
theorem encode_page_list_witness :
    ∃ w, mischiefToWacz doneCapture false = Except.ok w ∧
      w.pages = mischiefExchangeToPageLine (Sum.inl sessionExchange) ::
        (doneCapture.generatedExchanges.filter (fun g => g.isEntryPoint)).map
          (fun g => mischiefExchangeToPageLine (Sum.inr g)) := by
  obtain ⟨w, hw, hp⟩ := encode_page_list_composition doneCapture false (Or.inr rfl) (by decide)
  exact ⟨w, hw, hp sessionExchange (by decide)⟩

theorem exchangeRawFiles_keys_sublist (ex : MischiefExchange) :
    ((exchangeRawFiles ex).map Prod.fst).Sublist
      [rawPath "request" ex, rawPath "response" ex] := by
  unfold exchangeRawFiles
  cases ex.requestRaw <;> cases ex.responseRaw <;> simp

theorem rawWrites_keys_sublist (exs : List MischiefExchange) :
    ((rawWrites exs).map Prod.fst).Sublist (rawPathKeys exs) := by
  induction exs with
  | nil => simp [rawWrites, rawPathKeys]
  | cons e rest ih =>
    rw [rawWrites, rawPathKeys, List.flatMap_cons, List.flatMap_cons, List.map_append]
    exact List.Sublist.append (exchangeRawFiles_keys_sublist e)
      (by rw [rawWrites, rawPathKeys] at ih; exact ih)

theorem mem_rawPathKeys (exs : List MischiefExchange) (ex : MischiefExchange) (type : String)
    (hex : ex ∈ exs) (ht : type = "request" ∨ type = "response") :
    rawPath type ex ∈ rawPathKeys exs := by
  unfold rawPathKeys
  rw [List.mem_flatMap]
  exact ⟨ex, hex, by rcases ht with h | h <;> subst h <;> simp⟩

theorem rawWrites_mem_of_rawGet (exs : List MischiefExchange) (ex : MischiefExchange)
    (type : String) (d : Bytes) (hex : ex ∈ exs)
    (ht : type = "request" ∨ type = "response") (hr : rawGet ex type = some d) :
    (rawPath type ex, d) ∈ rawWrites exs := by
  unfold rawWrites
  rw [List.mem_flatMap]
  refine ⟨ex, hex, ?_⟩
  unfold exchangeRawFiles
  rcases ht with h | h <;> subst h
  · have hreq : ex.requestRaw = some d := by simpa [rawGet] using hr
    rw [hreq]
    exact List.mem_append_left _ (by simp)
  · have hres : ex.responseRaw = some d := by simpa [rawGet] using hr
    rw [hres]
    exact List.mem_append_right _ (by simp)

theorem find?_assoc_nodup (l : List (String × α)) (k : String) (v : α)
    (hmem : (k, v) ∈ l) (hnd : (l.map Prod.fst).Nodup) :
    l.find? (fun p => p.1 == k) = some (k, v) := by
  induction l with
  | nil => simp at hmem
  | cons a tl ih =>
    rw [List.map_cons, List.nodup_cons] at hnd
    rcases List.mem_cons.mp hmem with heq | htl
    · rw [← heq]
      rw [List.find?_cons_of_pos _ (by simp)]
    · have hak : ¬(a.1 = k) := by
        intro he
        apply hnd.1
        rw [he]
        have := List.mem_map_of_mem Prod.fst htl
        simpa using this
      rw [List.find?_cons_of_neg _ (by simp [hak])]
      exact ih htl hnd.2

theorem rawPath_not_in_writes (exs : List MischiefExchange) (ex : MischiefExchange)
    (type : String) (hnd : (rawPathKeys exs).Nodup) (hex : ex ∈ exs)
    (ht : type = "request" ∨ type = "response") (hr : rawGet ex type = none) :
    rawPath type ex ∉ (rawWrites exs).map Prod.fst := by
  induction exs with
  | nil => simp at hex
  | cons e rest ih =>
    rw [rawPathKeys, List.flatMap_cons, List.nodup_append] at hnd
    obtain ⟨hl, hr2, hdisj⟩ := hnd
    have hrqrs : rawPath "request" e ≠ rawPath "response" e := by
      rw [List.nodup_cons] at hl
      simpa using hl.1
    intro hmemk
    rw [rawWrites, List.flatMap_cons, List.map_append, List.mem_append] at hmemk
    rcases List.mem_cons.mp hex with hee | hrest
    · subst hee
      rcases hmemk with hk1 | hk2
      · have hsub := (exchangeRawFiles_keys_sublist ex).subset hk1
        rcases ht with h | h <;> subst h
        · have hreq : ex.requestRaw = none := by simpa [rawGet] using hr
          unfold exchangeRawFiles at hk1
          rw [hreq] at hk1
          cases hresv : ex.responseRaw with
          | none => rw [hresv] at hk1; simp at hk1
          | some dd =>
            rw [hresv] at hk1
            simp at hk1
            exact hrqrs hk1
        · have hres : ex.responseRaw = none := by simpa [rawGet] using hr
          unfold exchangeRawFiles at hk1
          rw [hres] at hk1
          cases hreqv : ex.requestRaw with
          | none => rw [hreqv] at hk1; simp at hk1
          | some dd =>
            rw [hreqv] at hk1
            simp at hk1
            exact hrqrs hk1.symm
      · have hks := (rawWrites_keys_sublist rest).subset hk2
        rcases ht with h | h <;> subst h
        · exact hdisj (by simp) hks
        · exact hdisj (by simp) hks
    · rcases hmemk with hk1 | hk2
      · have hsub := (exchangeRawFiles_keys_sublist e).subset hk1
        have hkeymem : rawPath type ex ∈ rawPathKeys rest := mem_rawPathKeys rest ex type hrest ht
        rcases List.mem_cons.mp hsub with he1 | he2
        · exact hdisj (by rw [he1]; simp) hkeymem
        · rcases List.mem_cons.mp he2 with he3 | he4
          · exact hdisj (by rw [he3]; simp) hkeymem
          · simp at he4
      · exact ih hr2 hrest hk2

/-- C9 counterexample: the claim as stated — with include-raw set,
every exchange and direction with a non-empty raw buffer has that buffer
in the container at its keyed path — is false when two exchanges share
timestamp and id: their paths collide and `wacz.files[path] = data`
overwrites, so the earlier buffer (`[1]` of `collideEx1`) ends up at no
path in the container at all; its path holds the later buffer `[2]`. -/
theorem encode_raw_payloads_counterexample :
    rawGet collideEx1 "response" = some [1] ∧
    rawPath "response" collideEx1 = rawPath "response" collideEx2 ∧
    ∃ w, mischiefToWacz collideCapture true = Except.ok w ∧
      jsObjGet w.files (rawPath "response" collideEx1) = some [2] ∧
      ∀ kv ∈ w.files, kv.2 ≠ ([1] : Bytes) := by
  refine ⟨rfl, rfl, _, mischiefToWacz_ok collideCapture true (Or.inr rfl), ?_, ?_⟩
  · show jsObjGet ((rawWrites collideCapture.exchanges).foldl
      (fun fs kv => jsObjSet fs kv.1 kv.2)
      [("archive/data.warc", warcFile collideCapture)])
      (rawPath "response" collideEx1) = some [2]
    decide
  · show ∀ kv ∈ (rawWrites collideCapture.exchanges).foldl
      (fun fs kv => jsObjSet fs kv.1 kv.2)
      [("archive/data.warc", warcFile collideCapture)], kv.2 ≠ ([1] : Bytes)
    decide

/-- C9 (amended): with the include-raw flag set, every present raw
buffer of every stored exchange is stored unchanged as an individually
addressable payload at `raw/<direction>_<timestamp>_<id>`, provided the
payload paths are pairwise distinct across the store (the `hkeys`
hypothesis); exchanges sharing timestamp and id collide at one path and
the later `wacz.files[path] = data` assignment overwrites the earlier,
so only the last colliding buffer survives. A direction with no raw
bytes contributes no payload at its path. (A buffer is present exactly
when bytes have arrived for that direction — the source tests
`if (data)`, and buffers are created only by chunk arrival.) -/
theorem encode_raw_payloads_addressable (m : Mischief) (type : String)
    (ex : MischiefExchange)
    (hstate : m.state = Mischief.states.PARTIAL ∨ m.state = Mischief.states.COMPLETE)
    (hkeys : ("archive/data.warc" :: rawPathKeys m.exchanges).Nodup)
    (hex : ex ∈ m.exchanges) (htype : type = "request" ∨ type = "response") :
    ∃ w, mischiefToWacz m true = Except.ok w ∧
      (∀ d, rawGet ex type = some d → jsObjGet w.files (rawPath type ex) = some d) ∧
      (rawGet ex type = none → jsObjGet w.files (rawPath type ex) = none) := by
  rw [List.nodup_cons] at hkeys
  obtain ⟨hwarc, hnd2⟩ := hkeys
  have hndw : ((rawWrites m.exchanges).map Prod.fst).Nodup :=
    hnd2.sublist (rawWrites_keys_sublist m.exchanges)
  have hfiles : (rawWrites m.exchanges).foldl (fun fs kv => jsObjSet fs kv.1 kv.2)
      [("archive/data.warc", warcFile m)]
      = [("archive/data.warc", warcFile m)] ++ rawWrites m.exchanges := by
    apply foldl_jsObjSet_append _ _ _ hndw
    intro kv hkv p hp
    have hp1 : p.1 = "archive/data.warc" := by
      rcases List.mem_singleton.mp hp with h
      rw [h]
    rw [hp1]
    intro he
    apply hwarc
    rw [he]
    exact (rawWrites_keys_sublist m.exchanges).subset (List.mem_map_of_mem Prod.fst hkv)
  have hfind_init : List.find? (fun p => p.1 == rawPath type ex)
      [("archive/data.warc", warcFile m)] = none := by
    rw [List.find?_eq_none]
    intro p hp
    rcases List.mem_singleton.mp hp with h
    rw [h]
    simp only [beq_iff_eq]
    exact fun he => rawPath_ne_warc type ex he.symm
  refine ⟨_, mischiefToWacz_ok m true hstate, ?_, ?_⟩
  · intro d hd
    show jsObjGet ((rawWrites m.exchanges).foldl (fun fs kv => jsObjSet fs kv.1 kv.2)
      [("archive/data.warc", warcFile m)]) (rawPath type ex) = some d
    rw [hfiles]
    unfold jsObjGet
    rw [List.find?_append, hfind_init]
    rw [find?_assoc_nodup (rawWrites m.exchanges) (rawPath type ex) d
      (rawWrites_mem_of_rawGet m.exchanges ex type d hex htype hd) hndw]
    rfl
  · intro hd
    show jsObjGet ((rawWrites m.exchanges).foldl (fun fs kv => jsObjSet fs kv.1 kv.2)
      [("archive/data.warc", warcFile m)]) (rawPath type ex) = none
    rw [hfiles]
    unfold jsObjGet
    rw [List.find?_append, hfind_init]
    rw [List.find?_eq_none.mpr]
    · rfl
    · intro p hp
      simp only [beq_iff_eq]
      intro he
      apply rawPath_not_in_writes m.exchanges ex type hnd2 hex htype hd
      rw [← he]
      exact List.mem_map_of_mem Prod.fst hp

/-- Witness for C9: the completed fixture capture stores its two-byte
response buffer at the keyed raw path. -/
theorem encode_raw_payloads_witness :
    ∃ w, mischiefToWacz doneCapture true = Except.ok w ∧
      jsObjGet w.files (rawPath "response" sessionExchange) = some [2] := by
  obtain ⟨w, hw, hsome, _⟩ := encode_raw_payloads_addressable doneCapture "response"
    sessionExchange (Or.inr rfl) (by decide) (by decide) (Or.inr rfl)
  exact ⟨w, hw, hsome [2] (by decide)⟩

theorem rawWrites_fst_shape (exs : List MischiefExchange) (kv : String × Bytes)
    (h : kv ∈ rawWrites exs) : ∃ t e, kv.1 = rawPath t e := by
  unfold rawWrites at h
  rw [List.mem_flatMap] at h
  obtain ⟨e, _, hke⟩ := h
  unfold exchangeRawFiles at hke
  rw [List.mem_append] at hke
  rcases hke with h1 | h1
  · cases hv : e.requestRaw with
    | none => rw [hv] at h1; simp at h1
    | some d =>
      rw [hv] at h1
      simp at h1
      exact ⟨"request", e, by rw [h1]⟩
  · cases hv : e.responseRaw with
    | none => rw [hv] at h1; simp at h1
    | some d =>
      rw [hv] at h1
      simp at h1
      exact ⟨"response", e, by rw [h1]⟩

theorem jsObjGet_files_warc (m : Mischief) (includeRaw : Bool) :
    jsObjGet (if includeRaw then
        (rawWrites m.exchanges).foldl (fun fs kv => jsObjSet fs kv.1 kv.2)
          [("archive/data.warc", warcFile m)]
        else [("archive/data.warc", warcFile m)]) "archive/data.warc"
      = some (warcFile m) := by
  have hbase : jsObjGet [("archive/data.warc", warcFile m)] "archive/data.warc"
      = some (warcFile m) := rfl
  cases includeRaw with
  | false => exact hbase
  | true =>
    show jsObjGet ((rawWrites m.exchanges).foldl (fun fs kv => jsObjSet fs kv.1 kv.2)
      [("archive/data.warc", warcFile m)]) "archive/data.warc" = some (warcFile m)
    rw [jsObjGet_foldl_set_ne]
    · exact hbase
    · intro kv hkv
      obtain ⟨t, e, hke⟩ := rawWrites_fst_shape m.exchanges kv hkv
      rw [hke]
      exact rawPath_ne_warc t e

/-- C1 counterexample: the claim as stated — provenance is always
field-for-field equal after the round trip — is false when the
`provenanceSummary` option is off: the encoder guard
`if (capture.options.provenanceSummary && capture.provenanceInfo)` then
omits the metadata-extras block, and the decoded capture carries no
provenance. `noProvCapture` is a complete capture with provenance
recorded but the option off. -/
theorem wacz_roundtrip_counterexample :
    ∃ m2, waczRoundTrip noProvCapture true = Except.ok m2 ∧
      noProvCapture.state = Mischief.states.COMPLETE ∧
      noProvCapture.provenanceInfo = some [("capture", "test")] ∧
      m2.provenanceInfo = none ∧
      m2.provenanceInfo ≠ noProvCapture.provenanceInfo := by
  obtain ⟨w, hw, hfiles, hextras⟩ : ∃ w, mischiefToWacz noProvCapture true = Except.ok w ∧
      jsObjGet w.files "archive/data.warc" = some (warcFile noProvCapture) ∧
      w.datapackageExtras = none := by
    refine ⟨_, mischiefToWacz_ok noProvCapture true (Or.inr rfl), ?_, rfl⟩
    exact jsObjGet_files_warc noProvCapture true
  have hdec : WACZToMischief w = Except.ok
      { state := Mischief.states.PARTIAL, url := "",
        options := { maxSize := 0, provenanceSummary := false },
        exchanges := noProvCapture.exchanges,
        generatedExchanges := noProvCapture.generatedExchanges,
        logs := [], totalSize := 0, provenanceInfo := w.datapackageExtras,
        browserCloseCount := 0 } := by
    simp only [WACZToMischief, hfiles, parseWarc_warcFile]
  refine ⟨{ state := Mischief.states.PARTIAL, url := "",
            options := { maxSize := 0, provenanceSummary := false },
            exchanges := noProvCapture.exchanges,
            generatedExchanges := noProvCapture.generatedExchanges,
            logs := [], totalSize := 0, provenanceInfo := none,
            browserCloseCount := 0 }, ?_, rfl, rfl, rfl, by decide⟩
  unfold waczRoundTrip
  rw [hw]
  show WACZToMischief w = Except.ok _
  rw [hdec, hextras]

/-- C1 (amended): decoding the encoded archive of a capture in a
terminal archivable state yields a capture whose exchange list and
generated-exchange list are field-for-field equal to the original, and
whose provenance equals the original exactly when the
`provenanceSummary` option is on (with the option off the encoder omits
provenance and the decoded capture carries none); state, logs and the
live browser/proxy handles are not part of the comparison (the decoder
does not reconstruct them). -/
theorem wacz_roundtrip_preserves_archived_fields (m : Mischief) (includeRaw : Bool)
    (hstate : m.state = Mischief.states.PARTIAL ∨ m.state = Mischief.states.COMPLETE) :
    ∃ m2, waczRoundTrip m includeRaw = Except.ok m2 ∧
      m2.exchanges = m.exchanges ∧
      m2.generatedExchanges = m.generatedExchanges ∧
      m2.provenanceInfo
        = (if m.options.provenanceSummary then m.provenanceInfo else none) := by
  obtain ⟨w, hw, hfiles, hextras⟩ : ∃ w, mischiefToWacz m includeRaw = Except.ok w ∧
      jsObjGet w.files "archive/data.warc" = some (warcFile m) ∧
      w.datapackageExtras
        = (if m.options.provenanceSummary then m.provenanceInfo else none) := by
    refine ⟨_, mischiefToWacz_ok m includeRaw hstate, ?_, rfl⟩
    exact jsObjGet_files_warc m includeRaw
  have hdec : WACZToMischief w = Except.ok
      { state := Mischief.states.PARTIAL, url := "",
        options := { maxSize := 0, provenanceSummary := false },
        exchanges := m.exchanges, generatedExchanges := m.generatedExchanges,
        logs := [], totalSize := 0, provenanceInfo := w.datapackageExtras,
        browserCloseCount := 0 } := by
    simp only [WACZToMischief, hfiles, parseWarc_warcFile]
  refine ⟨{ state := Mischief.states.PARTIAL, url := "",
            options := { maxSize := 0, provenanceSummary := false },
            exchanges := m.exchanges, generatedExchanges := m.generatedExchanges,
            logs := [], totalSize := 0,
            provenanceInfo := (if m.options.provenanceSummary then m.provenanceInfo else none),
            browserCloseCount := 0 }, ?_, rfl, rfl, rfl⟩
  unfold waczRoundTrip
  rw [hw]
  show WACZToMischief w = Except.ok _
  rw [hdec, hextras]

/-- Witness for C1: the completed fixture capture (provenance option on)
round-trips with its exchange list, generated-exchange list and
provenance intact. -/
theorem wacz_roundtrip_witness :
    ∃ m2, waczRoundTrip doneCapture true = Except.ok m2 ∧
      m2.exchanges = doneCapture.exchanges ∧
      m2.generatedExchanges = doneCapture.generatedExchanges ∧
      m2.provenanceInfo
        = (if doneCapture.options.provenanceSummary then doneCapture.provenanceInfo
           else none) :=
  wacz_roundtrip_preserves_archived_fields doneCapture true (Or.inr rfl)
